import Mathlib

/-!
# Interaction lists and the cross-section algorithm map

A shallow embedding of `EVGCore/InteractionList.cxx` and of the
`XSecAlgorithmMap` component declared in `EVGCore/XSecAlgorithmMap.h`.

The class `Interaction` (`Interaction/Interaction.h`) is not part of the
sources at hand, so the embedding is generic in the type `I` of Interaction
values.  Its copy constructor produces a value-equal object, its stream
operator is a function `I → String`.
-/

namespace genie

/-! ## InteractionList -/

/-- The class `InteractionList : public vector<Interaction *>`.  An entry is
either the null pointer (`none`) or a pointer to an Interaction that the list
owns exclusively (`some x`, the pointed-to value). -/
abbrev InteractionList (I : Type) : Type := List (Option I)

/-- The call `vector::push_back`: the new entry goes to the end. -/
def InteractionList.push_back {I : Type} (this : InteractionList I) (p : Option I) :
    InteractionList I :=
  this ++ [p]

/-- The call `vector::clear`: no entry is left. -/
def InteractionList.clear {I : Type} (_this : InteractionList I) : InteractionList I :=
  []

/-- The loop of `InteractionList::Reset`, run over the entries from `begin()`
to `end()`: every entry is handed to `delete`.  The second argument collects
the Interaction objects destroyed so far; `delete` of a null pointer does
nothing.  (The assignment `interaction = 0` changes the local copy of the
pointer only.) -/
def InteractionList.Reset.loop {I : Type} : List (Option I) → List I → List I
  | [], freed => freed
  | none :: rest, freed => InteractionList.Reset.loop rest freed
  | some x :: rest, freed => InteractionList.Reset.loop rest (freed ++ [x])

/-- The objects that `InteractionList::Reset` destroys, in the order of the
`delete` calls. -/
def InteractionList.Reset.destroyed {I : Type} (this : InteractionList I) : List I :=
  InteractionList.Reset.loop this []

/-- The method `InteractionList::Reset`: the list after the delete loop and
`this->clear()`. -/
def InteractionList.Reset {I : Type} (this : InteractionList I) : InteractionList I :=
  InteractionList.clear this

/-- The loop of `InteractionList::Append` (lines 65-69), run over the entries
of `intl` that the iterator has still to visit:
`this->push_back(new Interaction(*interaction))`.  The expression
`*interaction` dereferences the entry, so a null entry has no defined
behaviour (`none`); for a non-null entry the copy constructor gives a new
object with the same value, owned by `this`. -/
def InteractionList.Append.loop {I : Type} :
    List (Option I) → InteractionList I → Option (InteractionList I)
  | [], this => some this
  | none :: _, _ => none
  | some x :: rest, this =>
      InteractionList.Append.loop rest (InteractionList.push_back this (some x))

/-- The method `InteractionList::Append`, for `this` and `intl` two distinct
objects.  The state is the pair (`this`, `intl`); the result is the pair after
the call.  The argument is a const reference that the loop only reads. -/
def InteractionList.Append {I : Type} (this intl : InteractionList I) :
    Option (InteractionList I × InteractionList I) :=
  match InteractionList.Append.loop intl this with
  | some t => some (t, intl)
  | none => none

/-- The loop of `InteractionList::Copy` (lines 76-80), run over the entries of
`intl` that the iterator has still to visit; a null entry is dereferenced as
in `Append`. -/
def InteractionList.Copy.loop {I : Type} :
    List (Option I) → InteractionList I → Option (InteractionList I)
  | [], this => some this
  | none :: _, _ => none
  | some x :: rest, this =>
      InteractionList.Copy.loop rest (InteractionList.push_back this (some x))

/-- The method `InteractionList::Copy`, for `this` and `intl` two distinct
objects: `this->Reset()` and then the push_back loop over `intl`. -/
def InteractionList.Copy {I : Type} (this intl : InteractionList I) :
    Option (InteractionList I × InteractionList I) :=
  match InteractionList.Copy.loop intl (InteractionList.Reset this) with
  | some t => some (t, intl)
  | none => none

/-- The copy constructor `InteractionList(const InteractionList &)`: the base
vector is built empty, then `this->Copy(intl)`. -/
def InteractionList.copyConstruct {I : Type} (intl : InteractionList I) :
    Option (InteractionList I × InteractionList I) :=
  InteractionList.Copy [] intl

/-- The operator `InteractionList::operator =`: `this->Copy(intl)`, then
`*this` is returned. -/
def InteractionList.assign {I : Type} (this intl : InteractionList I) :
    Option (InteractionList I × InteractionList I) :=
  InteractionList.Copy this intl

/-- The spec's wording of `copy_from`, "equivalent to `reset()` followed by
`append(other_list)`", composed from the methods `Reset` and `Append`. -/
def InteractionList.copy_from_spec {I : Type} (this intl : InteractionList I) :
    Option (InteractionList I × InteractionList I) :=
  InteractionList.Append (InteractionList.Reset this) intl

/-- The text that `InteractionList::Print` writes for a null entry: the
literal followed by `endl`. -/
def InteractionList.nullText : String :=
  "\n******** NULL INTERACTION ********" ++ "\n"

/-- One iteration of the loop of `InteractionList::Print`: what is written
for one entry.  The function `render` is the text that `operator <<` of
Interaction writes. -/
def InteractionList.printEntry {I : Type} (render : I → String) : Option I → String
  | some x => render x
  | none => InteractionList.nullText

/-- The method `InteractionList::Print`.  The stream is the text written to it
so far; the result is the stream after the call. -/
def InteractionList.Print {I : Type} (render : I → String) :
    InteractionList I → String → String
  | [], stream => stream
  | e :: rest, stream =>
      InteractionList.Print render rest (stream ++ InteractionList.printEntry render e)

/-- The property that no entry of a list is the null pointer. -/
def InteractionList.NoNull {I : Type} (l : InteractionList I) : Prop :=
  ∀ e ∈ l, e ≠ none

instance InteractionList.decNoNull {I : Type} (l : InteractionList I) :
    Decidable (InteractionList.NoNull l) :=
  decidable_of_iff (∀ e ∈ l, Option.isSome e = true)
    (by
      unfold InteractionList.NoNull
      constructor
      · intro h e he hn
        have := h e he
        simp [hn] at this
      · intro h e he
        cases e with
        | none => exact absurd rfl (h none he)
        | some x => rfl)

/-! ## XSecAlgorithmMap

Only the header `EVGCore/XSecAlgorithmMap.h` is at hand.  The data members are
those of the header; the bodies of the methods follow the written
specification of the component. -/

/-- The class `XSecAlgorithmMap : public map<string, const XSecAlgorithmI *>`
with the private members of the header.  The type `A` is the type of
references to algorithm (model) instances, `S` the type of initial states.
The base-class map is the list of its (key, algorithm) entries in insertion
order, `fEventGeneratorList` is `none` while no generator list is recorded. -/
structure XSecAlgorithmMap (A S I : Type) where
  entries : List (String × A)
  fEventGeneratorList : Option (List A)
  fInitState : Option S
  fInteractionList : InteractionList I
deriving DecidableEq

/-- Modelled from the spec: the constructor `XSecAlgorithmMap()` (declared in
the header, body missing), "constructed empty". -/
def XSecAlgorithmMap.new (A S I : Type) : XSecAlgorithmMap A S I :=
  XSecAlgorithmMap.mk [] none none []

/-- Modelled from the spec: `UseGeneratorList` (declared in the header, body
missing), "records which generator-list to consult on the next build; does not
itself trigger a build". -/
def XSecAlgorithmMap.UseGeneratorList {A S I : Type} (m : XSecAlgorithmMap A S I)
    (list : List A) : XSecAlgorithmMap A S I :=
  XSecAlgorithmMap.mk m.entries (some list) m.fInitState m.fInteractionList

/-- Modelled from the spec: `Reset` (declared in the header, body missing),
"empties both the Interaction List and the key→algorithm mapping; does not
forget the recorded generator-list reference". -/
def XSecAlgorithmMap.Reset {A S I : Type} (m : XSecAlgorithmMap A S I) :
    XSecAlgorithmMap A S I :=
  XSecAlgorithmMap.mk [] m.fEventGeneratorList m.fInitState
    (InteractionList.Reset m.fInteractionList)

/-- Modelled from the spec: `GetInteractionList` (declared in the header, body
missing), "returns a read-only view of the owned Interaction List". -/
def XSecAlgorithmMap.GetInteractionList {A S I : Type} (m : XSecAlgorithmMap A S I) :
    InteractionList I :=
  m.fInteractionList

/-- Modelled from the spec: the duplicate test of the merge step of `BuildMap`
(body missing), "suppressing duplicates by discrete-channel equality".  The
function `key` is the key derivation of the spec, the "channel-identifying key
(derived from an Interaction's discrete descriptor)": two Interactions are the
same discrete channel when their keys are equal. -/
def XSecAlgorithmMap.holdsChannel {I : Type} (key : I → String)
    (l : InteractionList I) (i : I) : Bool :=
  l.any (fun e => match e with
    | some j => key j == key i
    | none => false)

/-- Modelled from the spec: steps 3 and 4 of `BuildMap` (body missing) for one
Interaction `i` returned by the model `a`.  "On a duplicate, the first model
to have claimed that channel wins ownership; later claimants for the same
channel are dropped"; otherwise the Interaction is retained in the owned list
and the mapping records "a non-owning reference to the model instance that
supplied it". -/
def XSecAlgorithmMap.claim {A S I : Type} (key : I → String) (a : A)
    (m : XSecAlgorithmMap A S I) (i : I) : XSecAlgorithmMap A S I :=
  if XSecAlgorithmMap.holdsChannel key m.fInteractionList i then m
  else XSecAlgorithmMap.mk (m.entries ++ [(key i, a)]) m.fEventGeneratorList m.fInitState
    (InteractionList.push_back m.fInteractionList (some i))

/-- Modelled from the spec: the merge of the list returned by one model into
the map (body of `BuildMap` missing), in the order of the returned list. -/
def XSecAlgorithmMap.merge {A S I : Type} (key : I → String) (a : A)
    (m : XSecAlgorithmMap A S I) (ilst : List I) : XSecAlgorithmMap A S I :=
  ilst.foldl (XSecAlgorithmMap.claim key a) m

/-- Modelled from the spec: step 2 of `BuildMap` (body missing), the loop over
the recorded generator list.  The function `enumerate` is the capability of
each model, "given initial state, which discrete channels am I responsible
for"; the list it returns is given by its Interaction instances.  "Models are
visited in generator-list order." -/
def XSecAlgorithmMap.visit {A S I : Type} (key : I → String)
    (enumerate : A → S → List I) (init_state : S) (list : List A)
    (m : XSecAlgorithmMap A S I) : XSecAlgorithmMap A S I :=
  list.foldl (fun acc a => XSecAlgorithmMap.merge key a acc (enumerate a init_state)) m

/-- Modelled from the spec: `BuildMap` (declared in the header, body missing).
`UseGeneratorList` "must be called before build_map": without a recorded list
there is no result.  Step 1 discards the previous content, the snapshot of the
initial state is taken, then the models are visited and their lists merged. -/
def XSecAlgorithmMap.BuildMap {A S I : Type} (key : I → String)
    (enumerate : A → S → List I) (m : XSecAlgorithmMap A S I) (init_state : S) :
    Option (XSecAlgorithmMap A S I) :=
  match m.fEventGeneratorList with
  | none => none
  | some list =>
      let m0 := XSecAlgorithmMap.Reset m
      let m1 := XSecAlgorithmMap.mk m0.entries m0.fEventGeneratorList (some init_state)
        m0.fInteractionList
      some (XSecAlgorithmMap.visit key enumerate init_state list m1)

/-- The lookup of a key in the entries of the base-class map: the algorithm
of the first entry under that key. -/
def XSecAlgorithmMap.lookup {A : Type} (entries : List (String × A)) (k : String) :
    Option A :=
  (entries.find? (fun e => e.1 == k)).map Prod.snd

/-- Modelled from the spec: `FindXSecAlgorithm` (declared const in the header,
body missing), "derives the lookup key from interaction's discrete descriptor
and returns the associated algorithm reference, or a not found result";
`none` is the not-found result. -/
def XSecAlgorithmMap.FindXSecAlgorithm {A S I : Type} (key : I → String)
    (m : XSecAlgorithmMap A S I) (i : I) : Option A :=
  XSecAlgorithmMap.lookup m.entries (key i)

/-- The keys of the key→algorithm mapping, in insertion order. -/
def XSecAlgorithmMap.keys {A S I : Type} (m : XSecAlgorithmMap A S I) : List String :=
  m.entries.map Prod.fst

/-- The channel keys of the Interactions of a list, in list order. -/
def InteractionList.channelKeys {I : Type} (key : I → String) (l : InteractionList I) :
    List String :=
  l.filterMap (Option.map key)

/-- The consistency of a map: its list holds no null entry, the keys of the
mapping are the channel keys of the list, in the same order, and no key occurs
twice. -/
def XSecAlgorithmMap.Consistent {A S I : Type} (key : I → String)
    (m : XSecAlgorithmMap A S I) : Prop :=
  InteractionList.NoNull m.fInteractionList ∧
  XSecAlgorithmMap.keys m = InteractionList.channelKeys key m.fInteractionList ∧
  (XSecAlgorithmMap.keys m).Nodup

/-- The model `a` claims the channel with key `k` for the initial state `s`:
its enumeration holds an Interaction with that key. -/
def XSecAlgorithmMap.claims {A S I : Type} (key : I → String)
    (enumerate : A → S → List I) (s : S) (k : String) (a : A) : Bool :=
  (enumerate a s).any (fun j => key j == k)

/-- The number of entries of an Interaction list whose channel key is `k`. -/
def XSecAlgorithmMap.channelCount {I : Type} (key : I → String)
    (l : InteractionList I) (k : String) : Nat :=
  (l.filter (fun e => match e with
    | some j => key j == k
    | none => false)).length

/-- The number of entries of the key→algorithm mapping under the key `k`. -/
def XSecAlgorithmMap.keyCount {A S I : Type} (m : XSecAlgorithmMap A S I)
    (k : String) : Nat :=
  (m.entries.filter (fun e => e.1 == k)).length

/-! ## The scenarios of the specification -/

/-- The processes of the scenario. -/
inductive Scenario.Proc where
  | CC
  | NC
deriving DecidableEq, Repr

/-- The scattering types of the scenario. -/
inductive Scenario.Scat where
  | QE
  | RES
  | DIS
deriving DecidableEq, Repr

/-- A small Interaction for the scenarios: probe and target codes, process
and scattering type (the discrete descriptor), and a kinematic variable that
is no part of the key. -/
structure Scenario.Interaction where
  probe : Int
  target : Int
  proc : Scenario.Proc
  scat : Scenario.Scat
  q2 : Nat
deriving DecidableEq, Repr

/-- The key derivation of the scenario: the discrete descriptor as text. -/
def Scenario.key (i : Scenario.Interaction) : String :=
  (match i.proc with
    | Scenario.Proc.CC => "CC"
    | Scenario.Proc.NC => "NC") ++ "-" ++
  (match i.scat with
    | Scenario.Scat.QE => "QE"
    | Scenario.Scat.RES => "RES"
    | Scenario.Scat.DIS => "DIS") ++ "-" ++
  (if i.target = 2212 then "proton" else "other")

/-- The two models of the scenarios. -/
inductive Scenario.Model where
  | ModelA
  | ModelB
deriving DecidableEq, Repr

/-- The channel CC-QE-proton for a muon neutrino (code 14) on a proton. -/
def Scenario.ccqe : Scenario.Interaction := Scenario.Interaction.mk 14 2212 Scenario.Proc.CC Scenario.Scat.QE 0

/-- The channel CC-RES-proton. -/
def Scenario.ccres : Scenario.Interaction := Scenario.Interaction.mk 14 2212 Scenario.Proc.CC Scenario.Scat.RES 0

/-- The channel NC-QE-proton. -/
def Scenario.ncqe : Scenario.Interaction := Scenario.Interaction.mk 14 2212 Scenario.Proc.NC Scenario.Scat.QE 0

/-- The channel NC-DIS-proton. -/
def Scenario.ncdis : Scenario.Interaction := Scenario.Interaction.mk 14 2212 Scenario.Proc.NC Scenario.Scat.DIS 0

/-- The first scenario: ModelA claims CC-QE-proton and CC-RES-proton, ModelB
claims NC-QE-proton, for the initial state (probe, target). -/
def Scenario.enumerate3 : Scenario.Model → Int × Int → List Scenario.Interaction
  | Scenario.Model.ModelA, _ => [Scenario.ccqe, Scenario.ccres]
  | Scenario.Model.ModelB, _ => [Scenario.ncqe]

/-- The second scenario: ModelA and ModelB both claim the channel X, here
CC-QE-proton, with different kinematics. -/
def Scenario.enumerateX : Scenario.Model → Int × Int → List Scenario.Interaction
  | Scenario.Model.ModelA, _ => [Scenario.ccqe]
  | Scenario.Model.ModelB, _ => [Scenario.Interaction.mk 14 2212 Scenario.Proc.CC Scenario.Scat.QE 7]

/-- The generator list of the scenarios: ModelA is listed first. -/
def Scenario.generators : List Scenario.Model :=
  [Scenario.Model.ModelA, Scenario.Model.ModelB]

/-- The map of the first scenario after `BuildMap`. -/
def Scenario.built3 : XSecAlgorithmMap Scenario.Model (Int × Int) Scenario.Interaction :=
  XSecAlgorithmMap.mk
    [("CC-QE-proton", Scenario.Model.ModelA), ("CC-RES-proton", Scenario.Model.ModelA),
     ("NC-QE-proton", Scenario.Model.ModelB)]
    (some Scenario.generators) (some (14, 2212))
    [some Scenario.ccqe, some Scenario.ccres, some Scenario.ncqe]

/-- A model that claims nothing. -/
def Scenario.enumerateNone : Scenario.Model → Int × Int → List Scenario.Interaction :=
  fun _ _ => []

/-! ## PythiaHadronization

The headers `PDG/PDGCodes.h` and `PDG/PDGUtils.h` are not at hand: the particle
codes and the predicates on codes that `Hadronize` uses are parameters. -/

/-- The constants of `PDG/PDGCodes.h` and the predicates of `PDG/PDGUtils.h`
that `PythiaHadronization::Hadronize` uses. -/
structure PdgTable where
  kPdgUQuark : Int
  kPdgDQuark : Int
  kPdgUQuarkBar : Int
  kPdgDQuarkBar : Int
  kPdgUUDiquarkS1 : Int
  kPdgUDDiquarkS1 : Int
  kPdgDDDiquarkS1 : Int
  IsProton : Int → Bool
  IsNeutron : Int → Bool
  IsNeutrino : Int → Bool
  IsAntiNeutrino : Int → Bool
  IsUQuark : Int → Bool
  IsDQuark : Int → Bool
  IsUAntiQuark : Int → Bool
  IsDAntiQuark : Int → Bool

/-- What is assumed of the codes and predicates: a code is not proton and
neutron at once, not neutrino and antineutrino at once, at most one of u, d,
anti-u, anti-d, and the three diquark codes are not 0. -/
structure PdgTable.Sound (lib : PdgTable) : Prop where
  nucleon : ∀ c, lib.IsProton c = true → lib.IsNeutron c = false
  probe : ∀ c, lib.IsNeutrino c = true → lib.IsAntiNeutrino c = false
  u_d : ∀ c, lib.IsUQuark c = true → lib.IsDQuark c = false
  u_ub : ∀ c, lib.IsUQuark c = true → lib.IsUAntiQuark c = false
  u_db : ∀ c, lib.IsUQuark c = true → lib.IsDAntiQuark c = false
  d_ub : ∀ c, lib.IsDQuark c = true → lib.IsUAntiQuark c = false
  d_db : ∀ c, lib.IsDQuark c = true → lib.IsDAntiQuark c = false
  ub_db : ∀ c, lib.IsUAntiQuark c = true → lib.IsDAntiQuark c = false
  uu_ne : lib.kPdgUUDiquarkS1 ≠ 0
  ud_ne : lib.kPdgUDDiquarkS1 ≠ 0
  dd_ne : lib.kPdgDDDiquarkS1 ≠ 0

/-- The numbering of the Particle Data Group, for the examples: quarks d = 1
and u = 2, antiquarks negative, spin-1 diquarks dd = 1103, ud = 2103,
uu = 2203, proton 2212, neutron 2112, neutrinos 12, 14, 16. -/
def PdgTable.standard : PdgTable where
  kPdgUQuark := 2
  kPdgDQuark := 1
  kPdgUQuarkBar := -2
  kPdgDQuarkBar := -1
  kPdgUUDiquarkS1 := 2203
  kPdgUDDiquarkS1 := 2103
  kPdgDDDiquarkS1 := 1103
  IsProton := fun c => c == 2212
  IsNeutron := fun c => c == 2112
  IsNeutrino := fun c => c == 12 || c == 14 || c == 16
  IsAntiNeutrino := fun c => c == -12 || c == -14 || c == -16
  IsUQuark := fun c => c == 2
  IsDQuark := fun c => c == 1
  IsUAntiQuark := fun c => c == -2
  IsDAntiQuark := fun c => c == -1

/-- What `Hadronize` reads from its argument: `target.StruckQuarkIsSet()`, the
locals `probe`, `hit_nucleon`, `hit_quark`, `from_sea` (lines 71-74) and the
three queries of `proc_info`.  The invariant mass W is handed to PYTHIA
unchanged and plays no part in the control flow. -/
structure HadronizeInput where
  StruckQuarkIsSet : Bool
  probe : Int
  hit_nucleon : Int
  hit_quark : Int
  from_sea : Bool
  IsWeakCC : Bool
  IsWeakNC : Bool
  IsWeak : Bool
deriving DecidableEq, Repr

/-- The booleans that `Hadronize` computes in lines 83-88 and 104-107. -/
structure HadronizeFlags where
  isp : Bool
  isn : Bool
  isv : Bool
  isvb : Bool
  iscc : Bool
  isnc : Bool
  isu : Bool
  isd : Bool
  isub : Bool
  isdb : Bool
deriving DecidableEq, Repr

/-- Lines 83-88 and 104-107 of `Hadronize`. -/
def Hadronize.flags (lib : PdgTable) (x : HadronizeInput) : HadronizeFlags where
  isp := lib.IsProton x.hit_nucleon
  isn := lib.IsNeutron x.hit_nucleon
  isv := lib.IsNeutrino x.probe
  isvb := lib.IsAntiNeutrino x.probe
  iscc := x.IsWeakCC
  isnc := x.IsWeakNC
  isu := lib.IsUQuark x.hit_quark
  isd := lib.IsDQuark x.hit_quark
  isub := lib.IsUAntiQuark x.hit_quark
  isdb := lib.IsDAntiQuark x.hit_quark

/-- How a run of `Hadronize` ends, with assertions enabled: a failed `assert`
(by source line), an `exit(1)` (by source line), or the call of `py2ent_` with
the quark and the diquark. -/
inductive HadronizeOutcome where
  | assertFailed (line : Nat)
  | exit1 (line : Nat)
  | py2ent (final_quark : Int) (diquark : Int)
deriving DecidableEq, Repr

/-- The local `allowed` of lines 109-111. -/
def Hadronize.allowed (f : HadronizeFlags) : Bool :=
  (f.iscc && f.isv && (f.isd || f.isub)) ||
  (f.iscc && f.isvb && (f.isu || f.isdb)) ||
  (f.isnc && (f.isv || f.isvb) && (f.isu || f.isd || f.isub || f.isdb))

/-- Lines 121-132: the hit quark after the interaction; `none` is the branch
that ends in `exit(1)`.  The test `proc_info.IsWeakNC()` is the query whose
value line 88 stored in `isnc`. -/
def Hadronize.finalQuark (lib : PdgTable) (f : HadronizeFlags) (hit_quark : Int) :
    Option Int :=
  if f.isnc then some hit_quark
  else if f.isv && f.isd then some lib.kPdgUQuark
  else if f.isv && f.isub then some lib.kPdgDQuarkBar
  else if f.isvb && f.isu then some lib.kPdgDQuark
  else if f.isvb && f.isdb then some lib.kPdgUQuarkBar
  else none

/-- A statement `if (c) diquark = v;` on the pair (final_quark, diquark). -/
def Hadronize.setDiquark (c : Bool) (v : Int) (st : Int × Int) : Int × Int :=
  if c then (st.1, v) else st

/-- A statement `if (c) {final_quark = q; diquark = v;}`. -/
def Hadronize.setBoth (c : Bool) (q v : Int) (st : Int × Int) : Int × Int :=
  if c then (q, v) else st

/-- Lines 138-141: the hit quark is a valence quark. -/
def Hadronize.remnantValence (lib : PdgTable) (f : HadronizeFlags) (st : Int × Int) :
    Int × Int :=
  let st := Hadronize.setDiquark (f.isp && f.isu) lib.kPdgUDDiquarkS1 st
  let st := Hadronize.setDiquark (f.isp && f.isd) lib.kPdgUUDiquarkS1 st
  let st := Hadronize.setDiquark (f.isn && f.isu) lib.kPdgDDDiquarkS1 st
  Hadronize.setDiquark (f.isn && f.isd) lib.kPdgUDDiquarkS1 st

/-- Lines 146-175: the hit quark is a sea quark. -/
def Hadronize.remnantSea (lib : PdgTable) (f : HadronizeFlags) (st : Int × Int) :
    Int × Int :=
  let st := Hadronize.setDiquark (f.isp && f.isu) lib.kPdgUDDiquarkS1 st
  let st := Hadronize.setDiquark (f.isp && f.isd) lib.kPdgUUDiquarkS1 st
  let st := Hadronize.setDiquark (f.isn && f.isu) lib.kPdgDDDiquarkS1 st
  let st := Hadronize.setDiquark (f.isn && f.isd) lib.kPdgUDDiquarkS1 st
  let st := Hadronize.setBoth (f.isp && f.isub && f.iscc) lib.kPdgUQuark lib.kPdgUUDiquarkS1 st
  let st := Hadronize.setBoth (f.isp && f.isub && f.isnc) lib.kPdgUQuark lib.kPdgUDDiquarkS1 st
  let st := Hadronize.setBoth (f.isp && f.isdb && f.iscc) lib.kPdgDQuark lib.kPdgUDDiquarkS1 st
  let st := Hadronize.setBoth (f.isp && f.isdb && f.isnc) lib.kPdgDQuark lib.kPdgUUDiquarkS1 st
  let st := Hadronize.setBoth (f.isn && f.isub && f.iscc) lib.kPdgUQuark lib.kPdgUDDiquarkS1 st
  let st := Hadronize.setBoth (f.isn && f.isub && f.isnc) lib.kPdgUQuark lib.kPdgDDDiquarkS1 st
  let st := Hadronize.setBoth (f.isn && f.isdb && f.iscc) lib.kPdgDQuark lib.kPdgDDDiquarkS1 st
  Hadronize.setBoth (f.isn && f.isdb && f.isnc) lib.kPdgDQuark lib.kPdgUDDiquarkS1 st

/-- Lines 137-176: the remnant diquark, and for a sea antiquark the final
quark again. -/
def Hadronize.remnant (lib : PdgTable) (f : HadronizeFlags) (from_sea : Bool)
    (st : Int × Int) : Int × Int :=
  if !from_sea then Hadronize.remnantValence lib f st
  else Hadronize.remnantSea lib f st

/-- Lines 115-185 of `Hadronize` on the computed booleans: `diquark` starts
at 0, the final quark is assigned, then the remnant, then `assert(diquark!=0)`
and the call of `py2ent_`. -/
def Hadronize.quarkSystem (lib : PdgTable) (f : HadronizeFlags) (x : HadronizeInput) :
    HadronizeOutcome :=
  if !x.IsWeak then HadronizeOutcome.assertFailed 120
  else match Hadronize.finalQuark lib f x.hit_quark with
    | none => HadronizeOutcome.exit1 130
    | some final_quark =>
      let st := Hadronize.remnant lib f x.from_sea (final_quark, 0)
      if st.2 = 0 then HadronizeOutcome.assertFailed 177
      else HadronizeOutcome.py2ent st.1 st.2

/-- The input `x` with the flag `from_sea` replaced. -/
def HadronizeInput.withSea (x : HadronizeInput) (sea : Bool) : HadronizeInput :=
  HadronizeInput.mk x.StruckQuarkIsSet x.probe x.hit_nucleon x.hit_quark sea
    x.IsWeakCC x.IsWeakNC x.IsWeak

/-- Example input: a muon neutrino (14), charged current, on a valence d quark
of a proton. -/
def Hadronize.exNuCCd : HadronizeInput :=
  HadronizeInput.mk true 14 2212 1 false true false true

/-- Example input: a muon antineutrino (-14), neutral current, on a sea anti-d
quark of a neutron. -/
def Hadronize.exNubarNCdbar : HadronizeInput :=
  HadronizeInput.mk true (-14) 2112 (-1) true false true true

/-- Example input: no struck quark is set and the struck nucleon code 0 is
neither proton nor neutron. -/
def Hadronize.exNoQuark : HadronizeInput :=
  HadronizeInput.mk false 14 0 1 false true false true

/-- Example input: an electron (11) as probe, struck quark set. -/
def Hadronize.exElectron : HadronizeInput :=
  HadronizeInput.mk true 11 2212 2 false false true true

/-- The method `PythiaHadronization::Hadronize` up to the call of PYTHIA, with
assertions enabled. -/
def Hadronize (lib : PdgTable) (x : HadronizeInput) : HadronizeOutcome :=
  if !x.StruckQuarkIsSet then HadronizeOutcome.assertFailed 69
  else
    let f := Hadronize.flags lib x
    if !(f.isp || f.isn) then HadronizeOutcome.exit1 91
    else if !(f.iscc || f.isnc) then HadronizeOutcome.exit1 95
    else if !(f.isv || f.isvb) then HadronizeOutcome.exit1 100
    else if !Hadronize.allowed f then HadronizeOutcome.assertFailed 112
    else Hadronize.quarkSystem lib f x

/-! ## BreitWignerLRes

The base class `Algorithm`, the class `BaryonResParams` and the function
`utils::bwfunc::BreitWignerL` are not at hand; what they do is a parameter. -/

/-- A pointer to an `Algorithm` as `Algorithm::SubAlg` returns it: the null
pointer, a pointer to an algorithm that implements `BaryonResDataSetI`, or a
pointer to an algorithm that does not. -/
inductive AlgorithmPtr (D O : Type) where
  | null
  | dataSet (d : D)
  | other (o : O)
deriving DecidableEq, Repr

/-- How a call of `Algorithm::SubAlg` ends: the registry ends the program
(the specification lets the registry fail fatally on a name it cannot
resolve), or the call returns a pointer. -/
inductive SubAlgResult (D O : Type) where
  | fatal
  | returned (p : AlgorithmPtr D O)
deriving DecidableEq, Repr

/-- The cast `dynamic_cast<const BaryonResDataSetI *>`: null for the null
pointer and for an algorithm of another type. -/
def dynamic_cast_BaryonResDataSetI {D O : Type} : AlgorithmPtr D O → Option D
  | AlgorithmPtr.null => none
  | AlgorithmPtr.dataSet d => some d
  | AlgorithmPtr.other _ => none

/-- The state of a `BreitWignerLRes` object: the part of the base class
`Algorithm` (its configuration) and the member `fBaryonResDataSet`, `none` for
the null pointer. -/
structure BreitWignerLRes (B D : Type) where
  base : B
  fBaryonResDataSet : Option D
deriving DecidableEq, Repr

/-- The method `BreitWignerLRes::LoadSubAlg`: the member is assigned the cast
of what `SubAlg` returns for the two configuration keys.  The result is `none`
when the program ends inside `SubAlg`. -/
def BreitWignerLRes.LoadSubAlg {B D O : Type}
    (SubAlg : B → String → String → SubAlgResult D O) (this : BreitWignerLRes B D) :
    Option (BreitWignerLRes B D) :=
  match SubAlg this.base "baryon-res-alg-name" "baryon-res-param-set" with
  | SubAlgResult.fatal => none
  | SubAlgResult.returned p =>
      some (BreitWignerLRes.mk this.base (dynamic_cast_BaryonResDataSetI p))

/-- The methods `BreitWignerLRes::Configure(const Registry &)` and
`BreitWignerLRes::Configure(string)`, which have the same body:
`Algorithm::Configure(config)`, then `LoadSubAlg()`.  The type `C` is the type
of the argument of either overload. -/
def BreitWignerLRes.Configure {B C D O : Type} (AlgorithmConfigure : B → C → B)
    (SubAlg : B → String → String → SubAlgResult D O) (this : BreitWignerLRes B D)
    (config : C) : Option (BreitWignerLRes B D) :=
  BreitWignerLRes.LoadSubAlg SubAlg
    (BreitWignerLRes.mk (AlgorithmConfigure this.base config) this.fBaryonResDataSet)

/-- The values that `Eval` reads from a `BaryonResParams` object. -/
structure BaryonResParams (V : Type) where
  Mass : V
  Width : V
  BreitWignerNorm : V
  OrbitalAngularMom : Int
deriving DecidableEq, Repr

/-- The method `BreitWignerLRes::Eval`: `SetDataSet(fBaryonResDataSet)` and
`RetrieveData(res)` on a new `BaryonResParams` object (the function
`RetrieveData` of the data set pointer, null or not, and the resonance), then
the call of `BreitWignerL`. -/
def BreitWignerLRes.Eval {B D R V : Type}
    (RetrieveData : Option D → R → BaryonResParams V)
    (BreitWignerL : V → Int → V → V → V → V) (this : BreitWignerLRes B D) (res : R)
    (W : V) : V :=
  let res_params := RetrieveData this.fBaryonResDataSet res
  let mass := res_params.Mass
  let width := res_params.Width
  let norm := res_params.BreitWignerNorm
  let L := res_params.OrbitalAngularMom
  BreitWignerL W L mass width norm

/-! ## gvld_e_res_xsec -/

/-- The constant `kElXSecDataSets`. -/
def kElXSecDataSets : Nat := 17

/-- The table `kElXSecDataSetLabel`. -/
def kElXSecDataSetLabel : List String :=
  ["JLAB (Hydrogen),  E = 2.445 GeV, #theta = 20.0 deg",
   "JLAB (Hydrogen),  E = 2.445 GeV, #theta = 30.0 deg",
   "JLAB (Hydrogen),  E = 2.445 GeV, #theta = 38.5 deg",
   "JLAB (Hydrogen),  E = 2.445 GeV, #theta = 70.0 deg",
   "JLAB (Hydrogen),  E = 3.245 GeV, #theta = 27.0 deg",
   "JLAB (Hydrogen),  E = 4.045 GeV, #theta = 48.0 deg",
   "JLAB (Hydrogen),  E = 4.054 GeV, #theta = 24.0 deg",
   "JLAB (Hydrogen),  E = 4.054 GeV, #theta = 30.0 deg",
   "JLAB (Hydrogen),  E = 4.054 GeV, #theta = 40.0 deg",
   "JLAB (Deuterium), E = 2.445 GeV, #theta = 20.0 deg",
   "JLAB (Deuterium), E = 2.445 GeV, #theta = 30.0 deg",
   "JLAB (Deuterium), E = 2.445 GeV, #theta = 70.0 deg",
   "JLAB (Deuterium), E = 3.245 GeV, #theta = 27.0 deg",
   "JLAB (Deuterium), E = 4.045 GeV, #theta = 30.0 deg",
   "JLAB (Deuterium), E = 4.045 GeV, #theta = 40.0 deg",
   "JLAB (Deuterium), E = 4.045 GeV, #theta = 48.0 deg",
   "JLAB (Deuterium), E = 4.054 GeV, #theta = 24.0 deg"]

/-- The table `kElXSecTarget`; the source comments entry 0 "proton" and
entry 9 "deuterium". -/
def kElXSecTarget : List Int :=
  [1000010010, 1000010010, 1000010010, 1000010010, 1000010010, 1000010010,
   1000010010, 1000010010, 1000010010,
   1000020010, 1000020010, 1000020010, 1000020010, 1000020010, 1000020010,
   1000020010, 1000020010]

/-- Modelled from the spec: `pdg::IonPdgCodeToZ` (`PDG/PDGUtils.h`, not at
hand), under the ion-code convention 10LZZZAAAI that `Model` uses for the
free proton 1000010010 and the free neutron 1000000010: the digits ZZZ. -/
def pdg.IonPdgCodeToZ (ion_pdgc : Int) : Int :=
  (ion_pdgc / 10000) % 1000

/-- Modelled from the spec: `pdg::IonPdgCodeToA` (`PDG/PDGUtils.h`, not at
hand), under the ion-code convention 10LZZZAAAI: the digits AAA. -/
def pdg.IonPdgCodeToA (ion_pdgc : Int) : Int :=
  (ion_pdgc / 10) % 1000

/-- The locals of `Model` that describe the target (lines 349-356).  The
fractions are the exact quotients; the source computes them in `double`. -/
structure Model.Composition where
  Z : Int
  A : Int
  N : Int
  tgt_has_p : Bool
  tgt_has_n : Bool
  frac_p : ℚ
  frac_n : ℚ
deriving DecidableEq

/-- Lines 349-356 of `Model` for the target code `target_pdgc`. -/
def Model.compositionOf (target_pdgc : Int) : Model.Composition :=
  let Z := pdg.IonPdgCodeToZ target_pdgc
  let A := pdg.IonPdgCodeToA target_pdgc
  let N := A - Z
  Model.Composition.mk Z A N (decide (Z > 0)) (decide (N > 0))
    ((Z : ℚ) / (A : ℚ)) ((N : ℚ) / (A : ℚ))

/-- Lines 349-356 of `Model` for the data set `iset`: the target code is
`kElXSecTarget[iset]`; `none` outside the table. -/
def Model.composition (iset : Nat) : Option Model.Composition :=
  (kElXSecTarget.get? iset).map Model.compositionOf

/-- The label of the data set `iset` names the nucleus `name`: it starts
with "JLAB (name)". -/
def Model.labelNames (name : String) (iset : Nat) : Bool :=
  match kElXSecDataSetLabel.get? iset with
  | some label => ("JLAB (" ++ name ++ ")").toList.isPrefixOf label.toList
  | none => false

/-- How a call of `utils::clap::CmdLineArgAsString` (not at hand) ends for one
option of the command line: it returns the value, or it throws a
`CmdLineArgParserException` whose `ArgumentFound()` is the given flag. -/
inductive CmdLineArg where
  | value (s : String)
  | exception (ArgumentFound : Bool)
deriving DecidableEq, Repr

/-- The option was found on the command line: the call returned its value, or
the exception says `ArgumentFound()`. -/
def CmdLineArg.found : CmdLineArg → Bool
  | CmdLineArg.value _ => true
  | CmdLineArg.exception ArgumentFound => ArgumentFound

/-- The call returned the value of the option. -/
def CmdLineArg.hasValue : CmdLineArg → Bool
  | CmdLineArg.value _ => true
  | CmdLineArg.exception _ => false

/-- The globals of the program that `GetCommandLineArgs` writes. -/
structure Globals where
  gOptDbURL : String
  gOptDbUser : String
  gOptDbPasswd : String
  gOptGModelName : String
  gOptGModelConf : String
  gCmpWithData : Bool
  gShowModel : Bool
deriving DecidableEq, Repr

/-- The globals at the start of the program: the strings are empty,
`gCmpWithData = true`, `gShowModel = false`. -/
def Globals.initial : Globals :=
  Globals.mk "" "" "" "" "" true false

/-- The constant `kDefDbURL`. -/
def kDefDbURL : String := "mysql://localhost/NuScat"

/-- The first try block of `GetCommandLineArgs` (option -m).  The result is
`none` when `assert(modelv.size()==2)` fails. -/
def GetCommandLineArgs.model (CmdLineArgAsString : Char → CmdLineArg)
    (Split : String → String → List String) (g : Globals) : Option Globals :=
  match CmdLineArgAsString 'm' with
  | CmdLineArg.value model =>
      match Split model "/" with
      | [name, conf] =>
          some (Globals.mk g.gOptDbURL g.gOptDbUser g.gOptDbPasswd name conf
            g.gCmpWithData true)
      | _ => none
  | CmdLineArg.exception ArgumentFound =>
      if !ArgumentFound then
        some (Globals.mk g.gOptDbURL g.gOptDbUser g.gOptDbPasswd g.gOptGModelName
          g.gOptGModelConf g.gCmpWithData false)
      else some g

/-- The second try block of `GetCommandLineArgs` (option -h). -/
def GetCommandLineArgs.url (CmdLineArgAsString : Char → CmdLineArg) (g : Globals) :
    Globals :=
  match CmdLineArgAsString 'h' with
  | CmdLineArg.value v =>
      Globals.mk v g.gOptDbUser g.gOptDbPasswd g.gOptGModelName g.gOptGModelConf
        g.gCmpWithData g.gShowModel
  | CmdLineArg.exception ArgumentFound =>
      if !ArgumentFound then
        Globals.mk kDefDbURL g.gOptDbUser g.gOptDbPasswd g.gOptGModelName g.gOptGModelConf
          g.gCmpWithData g.gShowModel
      else g

/-- The third try block of `GetCommandLineArgs` (option -u). -/
def GetCommandLineArgs.user (CmdLineArgAsString : Char → CmdLineArg) (g : Globals) :
    Globals :=
  match CmdLineArgAsString 'u' with
  | CmdLineArg.value v =>
      Globals.mk g.gOptDbURL v g.gOptDbPasswd g.gOptGModelName g.gOptGModelConf
        g.gCmpWithData g.gShowModel
  | CmdLineArg.exception ArgumentFound =>
      if !ArgumentFound then
        Globals.mk g.gOptDbURL g.gOptDbUser g.gOptDbPasswd g.gOptGModelName g.gOptGModelConf
          false g.gShowModel
      else g

/-- The fourth try block of `GetCommandLineArgs` (option -p). -/
def GetCommandLineArgs.passwd (CmdLineArgAsString : Char → CmdLineArg) (g : Globals) :
    Globals :=
  match CmdLineArgAsString 'p' with
  | CmdLineArg.value v =>
      Globals.mk g.gOptDbURL g.gOptDbUser v g.gOptGModelName g.gOptGModelConf
        g.gCmpWithData g.gShowModel
  | CmdLineArg.exception ArgumentFound =>
      if !ArgumentFound then
        Globals.mk g.gOptDbURL g.gOptDbUser g.gOptDbPasswd g.gOptGModelName g.gOptGModelConf
          false g.gShowModel
      else g

/-- The function `GetCommandLineArgs` on the globals.  The function
`CmdLineArgAsString` is the call of `utils::clap::CmdLineArgAsString` on the
command line of the run, `Split` is `utils::str::Split` (not at hand). -/
def GetCommandLineArgs (CmdLineArgAsString : Char → CmdLineArg)
    (Split : String → String → List String) (g : Globals) : Option Globals :=
  let g0 := Globals.mk g.gOptDbURL g.gOptDbUser g.gOptDbPasswd g.gOptGModelName
    g.gOptGModelConf true g.gShowModel
  match GetCommandLineArgs.model CmdLineArgAsString Split g0 with
  | none => none
  | some g1 =>
      some (GetCommandLineArgs.passwd CmdLineArgAsString
        (GetCommandLineArgs.user CmdLineArgAsString
          (GetCommandLineArgs.url CmdLineArgAsString g1)))

/-- A splitting function for the examples: the input is cut at every
character of the delimiter. -/
def Example.Split (input delimiter : String) : List String :=
  (input.toList.splitOnP (fun c => delimiter.toList.contains c)).map String.mk

/-- The command line of the example of the program documentation:
`-u costas -p ... -h mysql://localhost/NuScat -m genie::ReinSeghalRESPXSec/Default`. -/
def Example.documented : Char → CmdLineArg
  | 'u' => CmdLineArg.value "costas"
  | 'p' => CmdLineArg.value "&^@7287"
  | 'h' => CmdLineArg.value "mysql://localhost/NuScat"
  | 'm' => CmdLineArg.value "genie::ReinSeghalRESPXSec/Default"
  | _ => CmdLineArg.exception false

/-- A command line without any option. -/
def Example.noOption : Char → CmdLineArg :=
  fun _ => CmdLineArg.exception false

/-- A run in which the lookups of -m and -u throw an exception whose
`ArgumentFound()` is true, and -h and -p give a value. -/
def Example.foundNoValue : Char → CmdLineArg
  | 'm' => CmdLineArg.exception true
  | 'u' => CmdLineArg.exception true
  | 'h' => CmdLineArg.value "mysql://localhost/NuScat"
  | 'p' => CmdLineArg.value "secret"
  | _ => CmdLineArg.exception false

/-! ## GlashowResonancePXSec -/

/-- What `ValidProcess` and `Integral` read from the interaction: the bit
`kISkipProcessChk`, the probe code, `Tgt().HitNucIsSet()`, `IsWeakCC()` and the
probe energy in the lab frame. -/
structure GlashowInput (R : Type) where
  kISkipProcessChk : Bool
  ProbePdg : Int
  HitNucIsSet : Bool
  IsWeakCC : Bool
  ProbeE : R

/-- The constants of `Conventions/Constants.h` (not at hand) that `Integral`
uses. -/
structure GlashowConstants (R : Type) where
  kGF2 : R
  kPi : R
  kElectronMass : R
  kMw : R

/-- The method `GlashowResonancePXSec::XSec`: `return 0;`. -/
def GlashowResonancePXSec.XSec {R I K : Type} [Field R] (_interaction : I) (_kps : K) : R :=
  0

/-- The method `GlashowResonancePXSec::ValidProcess`; `IsAntiNuE` is
`pdg::IsAntiNuE` (not at hand). -/
def GlashowResonancePXSec.ValidProcess {R : Type} (IsAntiNuE : Int → Bool)
    (interaction : GlashowInput R) : Bool :=
  if interaction.kISkipProcessChk then true
  else
    let nuok := IsAntiNuE interaction.ProbePdg
    let nucok := !interaction.HitNucIsSet
    let ccprcok := interaction.IsWeakCC
    if !nuok then false
    else if !nucok then false
    else if !ccprcok then false
    else true

/-- The method `GlashowResonancePXSec::ValidKinematics`: `return true;`. -/
def GlashowResonancePXSec.ValidKinematics {R : Type} (_in : GlashowInput R) : Bool :=
  true

/-- How a call of `Integral` ends: it returns a value, after the given number
of lookups of the W in the PDG library, or it dereferences the null pointer
that the lookup returned. -/
inductive IntegralOutcome (R : Type) where
  | returned (xsec : R) (lookups : Nat)
  | nullParticle
deriving DecidableEq

/-- The method `GlashowResonancePXSec::Integral`.  The argument `FindWM` is
what `PDGLibrary::Instance()->Find(kPdgWM)` gives: `none` for the null
pointer, else the width of the particle.  The arithmetic of `double` is
written in a field `R`. -/
def GlashowResonancePXSec.Integral {R : Type} [Field R] (IsAntiNuE : Int → Bool)
    (c : GlashowConstants R) (FindWM : Option R) (interaction : GlashowInput R) :
    IntegralOutcome R :=
  if !GlashowResonancePXSec.ValidProcess IsAntiNuE interaction then
    IntegralOutcome.returned 0 0
  else if !GlashowResonancePXSec.ValidKinematics interaction then
    IntegralOutcome.returned 0 0
  else
    let E := interaction.ProbeE
    let gf := c.kGF2 / (3 * c.kPi)
    let me := c.kElectronMass
    let Mw := c.kMw
    match FindWM with
    | none => IntegralOutcome.nullParticle
    | some Gw =>
        let Mw2 := Mw ^ 2
        let Mw4 := Mw2 ^ 2
        let Gw2 := Gw ^ 2
        let s := 2 * me * E
        let bw := Mw4 / ((s - Mw2) ^ 2 + Gw2 * Mw2)
        let xsec := gf * s * bw
        IntegralOutcome.returned xsec 1

/-- Example of a sub-algorithm lookup that returns an algorithm which is not
a `BaryonResDataSetI`. -/
def Example.SubAlgOther : Unit → String → String → SubAlgResult Nat Unit :=
  fun _ _ _ => SubAlgResult.returned (AlgorithmPtr.other ())

/-- Example of a sub-algorithm lookup that returns the null pointer. -/
def Example.SubAlgNull : Unit → String → String → SubAlgResult Nat Unit :=
  fun _ _ _ => SubAlgResult.returned AlgorithmPtr.null

/-- An electron neutrino (12), charged current, no hit nucleon set: not the
antineutrino that the Glashow resonance needs. -/
def Example.nuE : GlashowInput ℚ :=
  GlashowInput.mk false 12 false true 6300000

/-- Constants for the examples. -/
def Example.constants : GlashowConstants ℚ :=
  GlashowConstants.mk 1 3 1 80

end genie

/-! ## Theorems: InteractionList -/

namespace genie

theorem InteractionList.Append_loop_eq {I : Type} (M : InteractionList I)
    (hM : InteractionList.NoNull M) (L : InteractionList I) :
    InteractionList.Append.loop M L = some (L ++ M) := by
  induction M generalizing L with
  | nil => simp [InteractionList.Append.loop]
  | cons e rest ih =>
    have hrest : InteractionList.NoNull rest := fun x hx => hM x (List.mem_cons_of_mem _ hx)
    cases e with
    | none => exact absurd rfl (hM none (List.mem_cons_self _ _))
    | some x =>
      simp [InteractionList.Append.loop, InteractionList.push_back, ih hrest]

theorem InteractionList.Copy_loop_eq_Append_loop {I : Type} (M L : InteractionList I) :
    InteractionList.Copy.loop M L = InteractionList.Append.loop M L := by
  induction M generalizing L with
  | nil => rfl
  | cons e rest ih =>
    cases e with
    | none => rfl
    | some x => simp only [InteractionList.Copy.loop, InteractionList.Append.loop, ih]

theorem InteractionList.Copy_eq_spec {I : Type} (L M : InteractionList I) :
    InteractionList.Copy L M = InteractionList.copy_from_spec L M := by
  simp only [InteractionList.Copy, InteractionList.copy_from_spec, InteractionList.Append,
    InteractionList.Copy_loop_eq_Append_loop]

theorem InteractionList.Copy_of_NoNull {I : Type} (L M : InteractionList I)
    (hM : InteractionList.NoNull M) : InteractionList.Copy L M = some (M, M) := by
  simp [InteractionList.Copy, InteractionList.Copy_loop_eq_Append_loop,
    InteractionList.Append_loop_eq M hM, InteractionList.Reset, InteractionList.clear]

theorem InteractionList.Reset_loop_eq {I : Type} (L : InteractionList I) (freed : List I) :
    InteractionList.Reset.loop L freed = freed ++ L.filterMap id := by
  induction L generalizing freed with
  | nil => simp [InteractionList.Reset.loop]
  | cons e rest ih =>
    cases e with
    | none => simp [InteractionList.Reset.loop, ih]
    | some x => simp [InteractionList.Reset.loop, ih]

theorem InteractionList.Print_eq_foldl {I : Type} (render : I → String)
    (L : InteractionList I) (stream : String) :
    InteractionList.Print render L stream
      = (L.map (InteractionList.printEntry render)).foldl (fun acc t => acc ++ t) stream := by
  induction L generalizing stream with
  | nil => simp [InteractionList.Print]
  | cons e rest ih => simp [InteractionList.Print, ih]

theorem foldl_append_assoc (ts : List String) (a b : String) :
    ts.foldl (fun acc t => acc ++ t) (a ++ b) = a ++ ts.foldl (fun acc t => acc ++ t) b := by
  induction ts generalizing b with
  | nil => rfl
  | cons t rest ih =>
    rw [List.foldl_cons, List.foldl_cons, String.append_assoc, ih]

theorem foldl_append_eq_join (ts : List String) (s : String) :
    ts.foldl (fun acc t => acc ++ t) s = s ++ String.join ts := by
  have h := foldl_append_assoc ts s ""
  rw [String.append_empty] at h
  rw [h]
  rfl

/-- C1: for every list L and every other list M without null entries,
`L.Append(M)` succeeds; afterwards L holds its old entries followed by copies
of the entries of M in the order of M, its length is |L|+|M|, every entry
occurs as often as in L and M together (nothing is de-duplicated), and M is
unchanged. -/
theorem InteractionList.Append_contents {I : Type} [DecidableEq I]
    (L M : InteractionList I) (hM : InteractionList.NoNull M) :
    ∃ L1, InteractionList.Append L M = some (L1, M) ∧ L1 = L ++ M ∧
      L1.length = L.length + M.length ∧
      ∀ e, L1.count e = L.count e + M.count e := by
  refine ⟨L ++ M, ?_, rfl, ?_, ?_⟩
  · simp [InteractionList.Append, InteractionList.Append_loop_eq M hM L]
  · simp
  · intro e
    simp

/-- Witness of C1: a list with a null entry takes the two entries of another
list, one of them equal to an entry it already holds. -/
theorem InteractionList.Append_contents_witness :
    InteractionList.NoNull [some 1, some 2] ∧
    ∃ L1, InteractionList.Append [some 1, none] [some 1, some 2] = some (L1, [some 1, some 2]) ∧
      L1 = [some 1, none] ++ [some 1, some 2] ∧
      L1.length = [some 1, (none : Option Nat)].length + [some 1, some 2].length ∧
      ∀ e, L1.count e = [some 1, none].count e + [some 1, some 2].count e :=
  ⟨by decide, InteractionList.Append_contents [some 1, none] [some 1, some 2] (by decide)⟩

/-- Counterexample to C2 as stated: for a source list that holds a null entry,
`Copy` dereferences the null pointer; the target does not become value-equal
to the source. -/
theorem InteractionList.Copy_null_counterexample :
    InteractionList.Copy [some 5] [some 1, (none : Option Nat)] = none ∧
    InteractionList.copy_from_spec [some 5] [some 1, (none : Option Nat)] = none ∧
    InteractionList.Copy [some 5] [some 1, (none : Option Nat)]
      ≠ some ([some 1, none], [some 1, none]) := by
  decide

/-- C2 (amended): for every list L and every distinct source list M,
`L.Copy(M)` behaves as `L.Reset()` followed by `L.Append(M)`, and so do the
copy constructor (from the empty list) and `operator =`; when M holds no null
entry, the call succeeds, L becomes equal to M whatever it held before, and M
is unchanged. -/
theorem InteractionList.Copy_eq_Reset_Append {I : Type} (L M : InteractionList I) :
    InteractionList.Copy L M = InteractionList.copy_from_spec L M ∧
    InteractionList.assign L M = InteractionList.copy_from_spec L M ∧
    InteractionList.copyConstruct M = InteractionList.copy_from_spec [] M ∧
    (InteractionList.NoNull M →
      InteractionList.Copy L M = some (M, M) ∧
      InteractionList.assign L M = some (M, M) ∧
      InteractionList.copyConstruct M = some (M, M)) := by
  refine ⟨InteractionList.Copy_eq_spec L M, InteractionList.Copy_eq_spec L M,
    InteractionList.Copy_eq_spec [] M, ?_⟩
  intro hM
  exact ⟨InteractionList.Copy_of_NoNull L M hM, InteractionList.Copy_of_NoNull L M hM,
    InteractionList.Copy_of_NoNull [] M hM⟩

/-- Witness of C2 (amended): a list of three entries, one of them null, is
overwritten by a copy of a list of two entries. -/
theorem InteractionList.Copy_eq_Reset_Append_witness :
    InteractionList.NoNull [some 1, some 2] ∧
    InteractionList.Copy [some 7, none, some 8] [some 1, some 2]
      = some ([some 1, some 2], [some 1, some 2]) :=
  ⟨by decide,
   ((InteractionList.Copy_eq_Reset_Append [some 7, none, some 8] [some 1, some 2]).2.2.2
      (by decide)).1⟩

/-- C5: for every list L, null entries included, `L.Reset()` leaves the empty
list and destroys every owned Interaction once; a second Reset gives the same
empty list and destroys nothing; Reset of the empty list is the empty list.
Reset is a total function: it has no failing case. -/
theorem InteractionList.Reset_empty_idempotent {I : Type} (L : InteractionList I) :
    InteractionList.Reset L = [] ∧
    InteractionList.Reset (InteractionList.Reset L) = InteractionList.Reset L ∧
    InteractionList.Reset ([] : InteractionList I) = [] ∧
    InteractionList.Reset.destroyed L = L.filterMap id ∧
    InteractionList.Reset.destroyed (InteractionList.Reset L) = [] := by
  refine ⟨rfl, rfl, rfl, ?_, rfl⟩
  simp [InteractionList.Reset.destroyed, InteractionList.Reset_loop_eq]

/-- C10: for every list, null entries included, `Print` is a total function
and appends to the stream, in list order, one text per entry: the rendering of
the Interaction for a non-null entry, and the placeholder text followed by a
newline for a null entry. -/
theorem InteractionList.Print_renders {I : Type} (render : I → String)
    (L : InteractionList I) (stream : String) :
    InteractionList.Print render L stream
      = stream ++ String.join (L.map (InteractionList.printEntry render)) ∧
    (∀ x, InteractionList.printEntry render (some x) = render x) ∧
    InteractionList.printEntry render none = "\n******** NULL INTERACTION ********\n" := by
  refine ⟨?_, fun _ => rfl, rfl⟩
  rw [InteractionList.Print_eq_foldl, foldl_append_eq_join]

end genie

/-! ## Theorems: XSecAlgorithmMap -/

namespace genie

namespace XSecAlgorithmMap

theorem holdsChannel_iff {I : Type} (key : I → String) (l : InteractionList I) (i : I) :
    holdsChannel key l i = true ↔ key i ∈ InteractionList.channelKeys key l := by
  unfold holdsChannel InteractionList.channelKeys
  rw [List.any_eq_true, List.mem_filterMap]
  constructor
  · rintro ⟨e, he, h⟩
    cases e with
    | none => simp at h
    | some j => exact ⟨some j, he, by simpa using h⟩
  · rintro ⟨e, he, h⟩
    cases e with
    | none => simp at h
    | some j => exact ⟨some j, he, by simpa using h⟩

theorem lookup_append {A : Type} (xs ys : List (String × A)) (k : String) :
    lookup (xs ++ ys) k = (lookup xs k).or (lookup ys k) := by
  unfold lookup
  rw [List.find?_append]
  cases List.find? (fun e => e.1 == k) xs <;> simp

theorem lookup_eq_none_iff {A : Type} (xs : List (String × A)) (k : String) :
    lookup xs k = none ↔ k ∉ xs.map Prod.fst := by
  unfold lookup
  simp [List.find?_eq_none]
  constructor
  · intro h a hka
    exact h k a hka rfl
  · intro h k1 a hka hk
    subst hk
    exact h a hka

theorem lookup_of_mem {A : Type} (xs : List (String × A)) (k : String) (a : A)
    (hnd : (xs.map Prod.fst).Nodup) (h : (k, a) ∈ xs) : lookup xs k = some a := by
  induction xs with
  | nil => simp at h
  | cons e rest ih =>
    rw [List.map_cons, List.nodup_cons] at hnd
    rcases List.mem_cons.1 h with h1 | h1
    · subst h1
      simp [lookup]
    · have hne : e.1 ≠ k := by
        intro he
        apply hnd.1
        rw [he]
        exact List.mem_map_of_mem Prod.fst h1
      have hrest := ih hnd.2 h1
      have hbeq : (e.1 == k) = false := by simpa using hne
      unfold lookup at hrest ⊢
      rw [List.find?_cons, hbeq]
      exact hrest

theorem claim_gen {A S I : Type} (key : I → String) (a : A)
    (m : XSecAlgorithmMap A S I) (i : I) :
    (claim key a m i).fEventGeneratorList = m.fEventGeneratorList ∧
    (claim key a m i).fInitState = m.fInitState := by
  unfold claim
  split <;> simp

theorem claim_consistent {A S I : Type} (key : I → String) (a : A)
    (m : XSecAlgorithmMap A S I) (i : I) (hm : Consistent key m) :
    Consistent key (claim key a m i) := by
  unfold claim
  split
  · exact hm
  · rename_i hno
    have hnot : key i ∉ InteractionList.channelKeys key m.fInteractionList := by
      rw [← holdsChannel_iff]
      exact hno
    obtain ⟨h1, h2, h3⟩ := hm
    refine ⟨?_, ?_, ?_⟩
    · intro e he
      simp only [InteractionList.push_back, List.mem_append, List.mem_singleton] at he
      rcases he with he | he
      · exact h1 e he
      · simp [he]
    · simp only [keys, InteractionList.channelKeys, InteractionList.push_back] at h2 ⊢
      simp [h2]
    · simp only [keys] at h2 h3 ⊢
      rw [List.map_append, List.nodup_append]
      refine ⟨h3, by simp, ?_⟩
      intro k hk hk2
      simp at hk2
      subst hk2
      rw [h2] at hk
      exact hnot hk

theorem claim_lookup {A S I : Type} (key : I → String) (a : A)
    (m : XSecAlgorithmMap A S I) (i : I) (hm : Consistent key m) (k : String) :
    lookup (claim key a m i).entries k
      = (lookup m.entries k).or (if key i = k then some a else none) := by
  unfold claim
  split
  · rename_i hyes
    rw [holdsChannel_iff, ← hm.2.1] at hyes
    by_cases hk : key i = k
    · subst hk
      have : lookup m.entries (key i) ≠ none := by
        rw [Ne, lookup_eq_none_iff]
        exact fun h => h hyes
      cases hl : lookup m.entries (key i) with
      | none => exact absurd hl this
      | some b => simp
    · simp [hk]
  · rw [lookup_append]
    congr 1
    by_cases hk : key i = k
    · simp [lookup, hk]
    · simp [lookup, hk]

theorem merge_gen {A S I : Type} (key : I → String) (a : A) (ilst : List I)
    (m : XSecAlgorithmMap A S I) :
    (merge key a m ilst).fEventGeneratorList = m.fEventGeneratorList ∧
    (merge key a m ilst).fInitState = m.fInitState := by
  induction ilst generalizing m with
  | nil => exact ⟨rfl, rfl⟩
  | cons i rest ih =>
    have h1 := ih (claim key a m i)
    have h2 := claim_gen key a m i
    simp only [merge, List.foldl_cons] at h1 ⊢
    exact ⟨h1.1.trans h2.1, h1.2.trans h2.2⟩

theorem merge_consistent {A S I : Type} (key : I → String) (a : A) (ilst : List I)
    (m : XSecAlgorithmMap A S I) (hm : Consistent key m) :
    Consistent key (merge key a m ilst) := by
  induction ilst generalizing m with
  | nil => exact hm
  | cons i rest ih => exact ih (claim key a m i) (claim_consistent key a m i hm)

theorem merge_lookup {A S I : Type} (key : I → String) (a : A) (ilst : List I)
    (m : XSecAlgorithmMap A S I) (hm : Consistent key m) (k : String) :
    lookup (merge key a m ilst).entries k
      = (lookup m.entries k).or
          (if ilst.any (fun j => key j == k) = true then some a else none) := by
  induction ilst generalizing m with
  | nil => simp [merge]
  | cons i rest ih =>
    have h1 := ih (claim key a m i) (claim_consistent key a m i hm)
    simp only [merge, List.foldl_cons] at h1 ⊢
    rw [h1, claim_lookup key a m i hm k, Option.or_assoc]
    congr 1
    by_cases hk : key i = k
    · simp [hk]
    · simp [hk]

theorem visit_gen {A S I : Type} (key : I → String) (enumerate : A → S → List I)
    (s : S) (gl : List A) (m : XSecAlgorithmMap A S I) :
    (visit key enumerate s gl m).fEventGeneratorList = m.fEventGeneratorList ∧
    (visit key enumerate s gl m).fInitState = m.fInitState := by
  induction gl generalizing m with
  | nil => exact ⟨rfl, rfl⟩
  | cons a rest ih =>
    have h1 := ih (merge key a m (enumerate a s))
    have h2 := merge_gen key a (enumerate a s) m
    simp only [visit, List.foldl_cons] at h1 ⊢
    exact ⟨h1.1.trans h2.1, h1.2.trans h2.2⟩

theorem visit_consistent {A S I : Type} (key : I → String) (enumerate : A → S → List I)
    (s : S) (gl : List A) (m : XSecAlgorithmMap A S I) (hm : Consistent key m) :
    Consistent key (visit key enumerate s gl m) := by
  induction gl generalizing m with
  | nil => exact hm
  | cons a rest ih =>
    exact ih (merge key a m (enumerate a s)) (merge_consistent key a (enumerate a s) m hm)

theorem visit_lookup {A S I : Type} (key : I → String) (enumerate : A → S → List I)
    (s : S) (gl : List A) (m : XSecAlgorithmMap A S I) (hm : Consistent key m)
    (k : String) :
    lookup (visit key enumerate s gl m).entries k
      = (lookup m.entries k).or (gl.find? (claims key enumerate s k)) := by
  induction gl generalizing m with
  | nil => simp [visit]
  | cons a rest ih =>
    have h1 := ih (merge key a m (enumerate a s))
      (merge_consistent key a (enumerate a s) m hm)
    simp only [visit, List.foldl_cons] at h1 ⊢
    rw [h1, merge_lookup key a (enumerate a s) m hm k, Option.or_assoc]
    congr 1
    rw [List.find?_cons]
    unfold claims
    cases (enumerate a s).any (fun j => key j == k) <;> simp

theorem new_consistent {A S I : Type} (key : I → String) (gl : Option (List A))
    (s : Option S) : Consistent key (XSecAlgorithmMap.mk [] gl s ([] : InteractionList I)) := by
  refine ⟨?_, rfl, ?_⟩
  · intro e he
    simp at he
  · simp [keys]

theorem BuildMap_built {A S I : Type} (key : I → String) (enumerate : A → S → List I)
    (m : XSecAlgorithmMap A S I) (gl : List A) (s : S)
    (hgl : m.fEventGeneratorList = some gl) :
    ∃ m1, BuildMap key enumerate m s = some m1 ∧ Consistent key m1 ∧
      m1.fEventGeneratorList = some gl ∧ m1.fInitState = some s ∧
      ∀ k, lookup m1.entries k = gl.find? (claims key enumerate s k) := by
  have hc := new_consistent (I := I) key (some gl) (some s)
  refine ⟨visit key enumerate s gl (XSecAlgorithmMap.mk [] (some gl) (some s) []), ?_,
    visit_consistent key enumerate s gl _ hc, ?_, ?_, ?_⟩
  · simp [BuildMap, hgl, Reset, InteractionList.Reset, InteractionList.clear]
  · exact (visit_gen key enumerate s gl _).1
  · exact (visit_gen key enumerate s gl _).2
  · intro k
    rw [visit_lookup key enumerate s gl _ hc k]
    simp [lookup]

theorem BuildMap_congr {A S I : Type} (key : I → String) (enumerate : A → S → List I)
    (m n : XSecAlgorithmMap A S I) (s : S)
    (h : m.fEventGeneratorList = n.fEventGeneratorList) :
    BuildMap key enumerate m s = BuildMap key enumerate n s := by
  simp only [BuildMap, Reset, InteractionList.Reset, InteractionList.clear, h]

theorem channelCount_eq_count {I : Type} (key : I → String) (l : InteractionList I)
    (k : String) :
    channelCount key l k = (InteractionList.channelKeys key l).count k := by
  unfold channelCount InteractionList.channelKeys
  induction l with
  | nil => rfl
  | cons e rest ih =>
    cases e with
    | none => simpa using ih
    | some j =>
      by_cases hj : key j = k
      · simp [List.filter_cons, hj, ih]
      · simp [List.filter_cons, hj, ih, List.count_cons]

theorem keyCount_eq_count {A S I : Type} (m : XSecAlgorithmMap A S I) (k : String) :
    keyCount m k = (keys m).count k := by
  unfold keyCount keys
  induction m.entries with
  | nil => rfl
  | cons e rest ih =>
    by_cases hj : e.1 = k
    · simp [List.filter_cons, hj, ih]
    · simp [List.filter_cons, hj, ih, List.count_cons]

theorem find?_first {A : Type} (p : A → Bool) (pre rest : List A) (a : A)
    (hpre : ∀ x ∈ pre, p x = false) (ha : p a = true) :
    (pre ++ a :: rest).find? p = some a := by
  rw [List.find?_append]
  have : pre.find? p = none := by
    rw [List.find?_eq_none]
    intro x hx
    simp [hpre x hx]
  rw [this, Option.none_or, List.find?_cons, ha]

theorem visit_of_empty {A S I : Type} (key : I → String) (enumerate : A → S → List I)
    (s : S) (gl : List A) (m : XSecAlgorithmMap A S I)
    (h : ∀ a ∈ gl, enumerate a s = []) : visit key enumerate s gl m = m := by
  induction gl generalizing m with
  | nil => rfl
  | cons a rest ih =>
    have ha : enumerate a s = [] := h a (List.mem_cons_self _ _)
    have hrest := ih m (fun x hx => h x (List.mem_cons_of_mem _ hx))
    simp only [visit, List.foldl_cons, ha, merge, List.foldl_nil] at hrest ⊢
    exact hrest

theorem resolves_of_mem {A S I : Type} (key : I → String) (m : XSecAlgorithmMap A S I)
    (hm : Consistent key m) (e : Option I) (he : e ∈ m.fInteractionList) :
    ∃ i, e = some i ∧ key i ∈ keys m ∧ ∃ a, lookup m.entries (key i) = some a := by
  cases e with
  | none => exact absurd rfl (hm.1 none he)
  | some i =>
    have hk : key i ∈ keys m := by
      rw [hm.2.1]
      exact List.mem_filterMap.2 ⟨some i, he, rfl⟩
    refine ⟨i, rfl, hk, ?_⟩
    cases hl : lookup m.entries (key i) with
    | none => exact absurd hk ((lookup_eq_none_iff _ _).1 hl)
    | some a => exact ⟨a, rfl⟩

/-- C3: when the generator list is `pre ++ a :: rest` and the models `a` and
`b`, with `b` in `rest`, both claim the channel of `x`, `BuildMap` succeeds,
the key→algorithm mapping and the interaction list each hold exactly one entry
for that channel, and the channel is attributed to the first claimant among
`pre ++ [a]`, never to a model found only in `rest`: to the earlier model `a`
itself when no model listed before it claims the channel. -/
theorem BuildMap_first_claimant_wins {A S I : Type} (key : I → String)
    (enumerate : A → S → List I) (m : XSecAlgorithmMap A S I)
    (pre rest : List A) (a b : A) (s : S) (x : I)
    (ha : claims key enumerate s (key x) a = true)
    (_hb : b ∈ rest) (_hbx : claims key enumerate s (key x) b = true) :
    ∃ m1, BuildMap key enumerate (UseGeneratorList m (pre ++ a :: rest)) s = some m1 ∧
      keyCount m1 (key x) = 1 ∧
      channelCount key (GetInteractionList m1) (key x) = 1 ∧
      FindXSecAlgorithm key m1 x = (pre ++ [a]).find? (claims key enumerate s (key x)) ∧
      ((∀ p ∈ pre, claims key enumerate s (key x) p = false) →
        FindXSecAlgorithm key m1 x = some a) := by
  obtain ⟨m1, h1, hc, _, _, hl⟩ :=
    BuildMap_built key enumerate (UseGeneratorList m (pre ++ a :: rest)) _ s rfl
  have hfind : lookup m1.entries (key x)
      = (pre ++ [a]).find? (claims key enumerate s (key x)) := by
    rw [hl, List.find?_append, List.find?_append, List.find?_cons, List.find?_cons, ha]
  have hsome : ∃ c, lookup m1.entries (key x) = some c := by
    rw [hfind, List.find?_append, List.find?_cons, ha]
    cases List.find? (claims key enumerate s (key x)) pre with
    | none => exact ⟨a, rfl⟩
    | some c => exact ⟨c, rfl⟩
  have hmem : key x ∈ keys m1 := by
    by_contra hno
    obtain ⟨c, hc1⟩ := hsome
    rw [(lookup_eq_none_iff _ _).2 hno] at hc1
    exact Option.noConfusion hc1
  refine ⟨m1, h1, ?_, ?_, hfind, ?_⟩
  · rw [keyCount_eq_count]
    exact List.count_eq_one_of_mem hc.2.2 hmem
  · rw [channelCount_eq_count, GetInteractionList, ← hc.2.1]
    exact List.count_eq_one_of_mem hc.2.2 hmem
  · intro hpre
    rw [FindXSecAlgorithm, hl]
    exact find?_first _ pre rest a hpre ha

/-- Witness of C3: ModelA and ModelB both claim CC-QE-proton, ModelA is listed
first; the built map has the single entry of ModelA. -/
theorem BuildMap_first_claimant_wins_witness :
    (BuildMap Scenario.key Scenario.enumerateX
        (UseGeneratorList (XSecAlgorithmMap.new _ _ _) Scenario.generators) (14, 2212)).map
      (fun m1 => (m1.entries, m1.fInteractionList))
      = some ([("CC-QE-proton", Scenario.Model.ModelA)], [some Scenario.ccqe]) ∧
    ∃ m1, BuildMap Scenario.key Scenario.enumerateX
        (UseGeneratorList (XSecAlgorithmMap.new _ _ _)
          ([] ++ Scenario.Model.ModelA :: [Scenario.Model.ModelB])) (14, 2212) = some m1 ∧
      keyCount m1 (Scenario.key Scenario.ccqe) = 1 ∧
      channelCount Scenario.key (GetInteractionList m1) (Scenario.key Scenario.ccqe) = 1 ∧
      FindXSecAlgorithm Scenario.key m1 Scenario.ccqe = some Scenario.Model.ModelA := by
  refine ⟨by decide, ?_⟩
  obtain ⟨m1, h1, h2, h3, _, h5⟩ :=
    BuildMap_first_claimant_wins Scenario.key Scenario.enumerateX (XSecAlgorithmMap.new _ _ _)
      [] [Scenario.Model.ModelB] Scenario.Model.ModelA Scenario.Model.ModelB (14, 2212)
      Scenario.ccqe (by decide) (by simp) (by decide)
  exact ⟨m1, h1, h2, h3, h5 (by simp)⟩

/-- C4: for every initial state and generator list, `BuildMap` succeeds and
afterwards every entry of `GetInteractionList()` is a non-null Interaction
that `FindXSecAlgorithm` resolves to an algorithm, every key of the mapping is
the channel key of exactly one Interaction of the list, every Interaction of
the list has exactly one entry of the mapping, and the keys of the mapping are
the channel keys of the list without repetition. -/
theorem BuildMap_bidirectional_complete {A S I : Type} (key : I → String)
    (enumerate : A → S → List I) (m : XSecAlgorithmMap A S I) (gl : List A) (s : S) :
    ∃ m1, BuildMap key enumerate (UseGeneratorList m gl) s = some m1 ∧
      (∀ e ∈ GetInteractionList m1,
        ∃ i, e = some i ∧ ∃ a, FindXSecAlgorithm key m1 i = some a) ∧
      (∀ k ∈ keys m1, channelCount key (GetInteractionList m1) k = 1) ∧
      (∀ i, some i ∈ GetInteractionList m1 → keyCount m1 (key i) = 1) ∧
      keys m1 = InteractionList.channelKeys key (GetInteractionList m1) ∧
      (keys m1).Nodup := by
  obtain ⟨m1, h1, hc, _, _, _⟩ :=
    BuildMap_built key enumerate (UseGeneratorList m gl) gl s rfl
  refine ⟨m1, h1, ?_, ?_, ?_, hc.2.1, hc.2.2⟩
  · intro e he
    obtain ⟨i, hi, _, a, ha⟩ := resolves_of_mem key m1 hc e he
    exact ⟨i, hi, a, ha⟩
  · intro k hk
    rw [channelCount_eq_count, GetInteractionList, ← hc.2.1]
    exact List.count_eq_one_of_mem hc.2.2 hk
  · intro i hi
    obtain ⟨j, hj, hk, _⟩ := resolves_of_mem key m1 hc (some i) hi
    cases hj
    rw [keyCount_eq_count]
    exact List.count_eq_one_of_mem hc.2.2 hk

/-- C6: for every generator list and initial states s1, s2, `BuildMap(s2)`
after `BuildMap(s1)` gives the map that `BuildMap(s2)` gives on a reset map
and on a new map with the same generator list; every entry of the result is
claimed for s2 by a model of the list, so no entry from s1 survives; and
`BuildMap(s1)` a second time gives the map of the first call. -/
theorem BuildMap_full_rebuild {A S I : Type} (key : I → String)
    (enumerate : A → S → List I) (m : XSecAlgorithmMap A S I) (gl : List A) (s1 s2 : S) :
    ∃ m1 m2, BuildMap key enumerate (UseGeneratorList m gl) s1 = some m1 ∧
      BuildMap key enumerate m1 s2 = some m2 ∧
      BuildMap key enumerate (Reset m1) s2 = some m2 ∧
      BuildMap key enumerate (Reset (UseGeneratorList m gl)) s2 = some m2 ∧
      BuildMap key enumerate (UseGeneratorList (XSecAlgorithmMap.new A S I) gl) s2 = some m2 ∧
      (∀ k a, (k, a) ∈ m2.entries → a ∈ gl ∧ claims key enumerate s2 k a = true) ∧
      (∀ i, some i ∈ GetInteractionList m2 →
        ∃ a ∈ gl, claims key enumerate s2 (key i) a = true) ∧
      BuildMap key enumerate m1 s1 = some m1 := by
  obtain ⟨m1, h1, _, g1, _, _⟩ :=
    BuildMap_built key enumerate (UseGeneratorList m gl) gl s1 rfl
  obtain ⟨m2, h2, c2, _, _, l2⟩ := BuildMap_built key enumerate m1 gl s2 g1
  have hent : ∀ k a, lookup m2.entries k = some a →
      a ∈ gl ∧ claims key enumerate s2 k a = true := by
    intro k a hka
    rw [l2] at hka
    exact ⟨List.mem_of_find?_eq_some hka, List.find?_some hka⟩
  refine ⟨m1, m2, h1, h2, ?_, ?_, ?_, ?_, ?_, ?_⟩
  · rw [← h2]
    exact BuildMap_congr key enumerate _ _ s2 rfl
  · rw [← h2]
    exact BuildMap_congr key enumerate _ _ s2 g1.symm
  · rw [← h2]
    exact BuildMap_congr key enumerate _ _ s2 g1.symm
  · intro k a hka
    exact hent k a (lookup_of_mem _ k a c2.2.2 hka)
  · intro i hi
    obtain ⟨j, hj, _, a, ha⟩ := resolves_of_mem key m2 c2 (some i) hi
    cases hj
    exact ⟨a, hent _ a ha⟩
  · rw [← h1]
    exact BuildMap_congr key enumerate _ _ s1 g1

/-- C7: after `BuildMap`, `FindXSecAlgorithm` is a lookup in the built map
(the method is const: it yields a result and no new state).  For every
interaction it returns the first model of the generator list that claims the
channel of the interaction, which is a model of the list that claims it; it
returns the not-found result exactly when no model of the list claims that
channel. -/
theorem FindXSecAlgorithm_after_BuildMap {A S I : Type} (key : I → String)
    (enumerate : A → S → List I) (m m1 : XSecAlgorithmMap A S I) (gl : List A) (s : S)
    (hgl : m.fEventGeneratorList = some gl)
    (hb : BuildMap key enumerate m s = some m1) (i : I) :
    FindXSecAlgorithm key m1 i = gl.find? (claims key enumerate s (key i)) ∧
    (∀ a, FindXSecAlgorithm key m1 i = some a →
      a ∈ gl ∧ claims key enumerate s (key i) a = true) ∧
    (FindXSecAlgorithm key m1 i = none ↔
      ∀ a ∈ gl, claims key enumerate s (key i) a = false) := by
  obtain ⟨m2, h2, _, _, _, l2⟩ := BuildMap_built key enumerate m gl s hgl
  rw [hb] at h2
  cases h2
  have hf : FindXSecAlgorithm key m1 i = gl.find? (claims key enumerate s (key i)) :=
    l2 (key i)
  refine ⟨hf, ?_, ?_⟩
  · intro a ha
    rw [hf] at ha
    exact ⟨List.mem_of_find?_eq_some ha, List.find?_some ha⟩
  · rw [hf, List.find?_eq_none]
    constructor
    · intro h a ha
      simpa using h a ha
    · intro h a ha
      simp [h a ha]

/-- Witness of C7: ModelA claims CC-QE-proton and CC-RES-proton, ModelB claims
NC-QE-proton; the list has 3 entries, CC-QE-proton resolves to ModelA and
NC-DIS-proton is not found. -/
theorem FindXSecAlgorithm_after_BuildMap_witness :
    BuildMap Scenario.key Scenario.enumerate3
      (UseGeneratorList (XSecAlgorithmMap.new _ _ _) Scenario.generators) (14, 2212)
      = some Scenario.built3 ∧
    (GetInteractionList Scenario.built3).length = 3 ∧
    FindXSecAlgorithm Scenario.key Scenario.built3 Scenario.ccqe
      = some Scenario.Model.ModelA ∧
    FindXSecAlgorithm Scenario.key Scenario.built3 Scenario.ncdis = none :=
  ⟨by decide, by decide,
   (FindXSecAlgorithm_after_BuildMap Scenario.key Scenario.enumerate3
      (UseGeneratorList (XSecAlgorithmMap.new _ _ _) Scenario.generators) Scenario.built3
      Scenario.generators (14, 2212) rfl (by decide) Scenario.ccqe).1.trans (by decide),
   (FindXSecAlgorithm_after_BuildMap Scenario.key Scenario.enumerate3
      (UseGeneratorList (XSecAlgorithmMap.new _ _ _) Scenario.generators) Scenario.built3
      Scenario.generators (14, 2212) rfl (by decide) Scenario.ncdis).2.2.2 (by decide)⟩

/-- C8: for every built map, after `Reset()` the interaction list and the
mapping are empty, `FindXSecAlgorithm` returns the not-found result for every
interaction, the recorded generator list is the one recorded before, and a
following `BuildMap` succeeds with the result it has without the Reset. -/
theorem Reset_empties_keeps_generators {A S I : Type} (key : I → String)
    (enumerate : A → S → List I) (m : XSecAlgorithmMap A S I) (gl : List A) (s s2 : S) :
    ∃ m1, BuildMap key enumerate (UseGeneratorList m gl) s = some m1 ∧
      GetInteractionList (Reset m1) = [] ∧
      (Reset m1).entries = [] ∧
      (∀ i, FindXSecAlgorithm key (Reset m1) i = none) ∧
      (Reset m1).fEventGeneratorList = m1.fEventGeneratorList ∧
      (Reset m1).fEventGeneratorList = some gl ∧
      ∃ m2, BuildMap key enumerate (Reset m1) s2 = some m2 ∧
        BuildMap key enumerate m1 s2 = some m2 := by
  obtain ⟨m1, h1, _, g1, _, _⟩ :=
    BuildMap_built key enumerate (UseGeneratorList m gl) gl s rfl
  obtain ⟨m2, h2, _, _, _, _⟩ := BuildMap_built key enumerate m1 gl s2 g1
  refine ⟨m1, h1, rfl, rfl, fun _ => rfl, rfl, g1, m2, ?_, h2⟩
  rw [← h2]
  exact BuildMap_congr key enumerate _ _ s2 rfl

/-- C9: when every model of the generator list enumerates no interaction for
the initial state (in particular when the list is empty), `BuildMap` succeeds
with an empty map: the interaction list and the mapping are empty, and
`FindXSecAlgorithm` returns the not-found result for every interaction. -/
theorem BuildMap_nothing_claimed {A S I : Type} (key : I → String)
    (enumerate : A → S → List I) (m : XSecAlgorithmMap A S I) (gl : List A) (s : S)
    (h : ∀ a ∈ gl, enumerate a s = []) :
    ∃ m1, BuildMap key enumerate (UseGeneratorList m gl) s = some m1 ∧
      GetInteractionList m1 = [] ∧
      m1.entries = [] ∧
      ∀ i, FindXSecAlgorithm key m1 i = none := by
  refine ⟨XSecAlgorithmMap.mk [] (some gl) (some s) [], ?_, rfl, rfl, fun _ => rfl⟩
  simp [BuildMap, UseGeneratorList, Reset, InteractionList.Reset, InteractionList.clear,
    visit_of_empty key enumerate s gl _ h]

/-- Witness of C9: the empty generator list, and a list of two models that
claim nothing, on a map that was built before. -/
theorem BuildMap_nothing_claimed_witness :
    (∃ m1, BuildMap Scenario.key Scenario.enumerate3
        (UseGeneratorList Scenario.built3 []) (14, 2212) = some m1 ∧
      GetInteractionList m1 = [] ∧ m1.entries = [] ∧
      ∀ i, FindXSecAlgorithm Scenario.key m1 i = none) ∧
    (∀ a ∈ Scenario.generators, Scenario.enumerateNone a (14, 2212) = []) ∧
    (∃ m1, BuildMap Scenario.key Scenario.enumerateNone
        (UseGeneratorList Scenario.built3 Scenario.generators) (14, 2212) = some m1 ∧
      GetInteractionList m1 = [] ∧ m1.entries = [] ∧
      ∀ i, FindXSecAlgorithm Scenario.key m1 i = none) :=
  ⟨BuildMap_nothing_claimed Scenario.key Scenario.enumerate3 Scenario.built3 []
     (14, 2212) (by simp),
   fun _ _ => rfl,
   BuildMap_nothing_claimed Scenario.key Scenario.enumerateNone Scenario.built3
     Scenario.generators (14, 2212) (fun _ _ => rfl)⟩

end XSecAlgorithmMap

end genie

/-! ## Theorems: PythiaHadronization -/

namespace genie

theorem PdgTable.standard_sound : PdgTable.standard.Sound := by
  constructor
  all_goals intros
  all_goals simp_all [PdgTable.standard]
  omega

theorem Hadronize.finalQuark_of_allowed (lib : PdgTable) (f : HadronizeFlags) (q : Int)
    (h : Hadronize.allowed f = true) : Hadronize.finalQuark lib f q ≠ none := by
  obtain ⟨isp, isn, isv, isvb, iscc, isnc, isu, isd, isub, isdb⟩ := f
  revert h
  cases isnc <;> cases iscc <;> cases isv <;> cases isvb <;> cases isu <;> cases isd <;>
    cases isub <;> cases isdb <;> simp [Hadronize.allowed, Hadronize.finalQuark]

theorem Hadronize.quarkSystem_ne_exit (lib : PdgTable) (f : HadronizeFlags)
    (x : HadronizeInput) (h : Hadronize.allowed f = true) (l : Nat) :
    Hadronize.quarkSystem lib f x ≠ HadronizeOutcome.exit1 l := by
  have hq := Hadronize.finalQuark_of_allowed lib f x.hit_quark h
  unfold Hadronize.quarkSystem
  split
  · simp
  · split
    · rename_i hnone
      exact absurd hnone hq
    · simp only []
      split <;> simp

theorem Hadronize_of_checks (lib : PdgTable) (x : HadronizeInput)
    (hset : x.StruckQuarkIsSet = true)
    (hc : ((Hadronize.flags lib x).isp || (Hadronize.flags lib x).isn) = true)
    (hp : ((Hadronize.flags lib x).iscc || (Hadronize.flags lib x).isnc) = true)
    (hv : ((Hadronize.flags lib x).isv || (Hadronize.flags lib x).isvb) = true)
    (hallowed : Hadronize.allowed (Hadronize.flags lib x) = true) :
    Hadronize lib x = Hadronize.quarkSystem lib (Hadronize.flags lib x) x := by
  simp only [Hadronize, hset, hc, hp, hv, hallowed]
  simp

/-- C14: for an input that passes the checks with exactly one of CC/NC set and
a struck u or d quark, the quark handed to PYTHIA is the struck quark for NC,
u for a neutrino CC interaction on d and d for an antineutrino CC interaction
on u; the other two CC combinations, neutrino on u and antineutrino on d, fail
the assertion of `allowed`. -/
theorem Hadronize_final_quark_u_d (lib : PdgTable) (hs : lib.Sound) (x : HadronizeInput)
    (hset : x.StruckQuarkIsSet = true) (hweak : x.IsWeak = true)
    (hnuc : lib.IsProton x.hit_nucleon = true ∨ lib.IsNeutron x.hit_nucleon = true)
    (hprobe : lib.IsNeutrino x.probe = true ∨ lib.IsAntiNeutrino x.probe = true)
    (hone : x.IsWeakCC = !x.IsWeakNC)
    (hud : lib.IsUQuark x.hit_quark = true ∨ lib.IsDQuark x.hit_quark = true) :
    (x.IsWeakNC = true → ∃ dq, Hadronize lib x = HadronizeOutcome.py2ent x.hit_quark dq) ∧
    (x.IsWeakCC = true → lib.IsNeutrino x.probe = true → lib.IsDQuark x.hit_quark = true →
      ∃ dq, Hadronize lib x = HadronizeOutcome.py2ent lib.kPdgUQuark dq) ∧
    (x.IsWeakCC = true → lib.IsAntiNeutrino x.probe = true → lib.IsUQuark x.hit_quark = true →
      ∃ dq, Hadronize lib x = HadronizeOutcome.py2ent lib.kPdgDQuark dq) ∧
    (x.IsWeakCC = true → lib.IsNeutrino x.probe = true → lib.IsUQuark x.hit_quark = true →
      Hadronize lib x = HadronizeOutcome.assertFailed 112) ∧
    (x.IsWeakCC = true → lib.IsAntiNeutrino x.probe = true → lib.IsDQuark x.hit_quark = true →
      Hadronize lib x = HadronizeOutcome.assertFailed 112) := by
  have hn := hs.nucleon x.hit_nucleon
  have hpr := hs.probe x.probe
  have h1 := hs.u_d x.hit_quark
  have h2 := hs.u_ub x.hit_quark
  have h3 := hs.u_db x.hit_quark
  have h4 := hs.d_ub x.hit_quark
  have h5 := hs.d_db x.hit_quark
  have huu := hs.uu_ne
  have hud1 := hs.ud_ne
  have hdd := hs.dd_ne
  simp only [Hadronize, Hadronize.flags, Hadronize.quarkSystem, Hadronize.allowed,
    Hadronize.finalQuark, Hadronize.remnant, Hadronize.remnantValence, Hadronize.remnantSea,
    Hadronize.setDiquark, Hadronize.setBoth, hset, hweak, hone]
  generalize lib.IsProton x.hit_nucleon = isp at *
  generalize lib.IsNeutron x.hit_nucleon = isn at *
  generalize lib.IsNeutrino x.probe = isv at *
  generalize lib.IsAntiNeutrino x.probe = isvb at *
  generalize lib.IsUQuark x.hit_quark = isu at *
  generalize lib.IsDQuark x.hit_quark = isd at *
  generalize lib.IsUAntiQuark x.hit_quark = isub at *
  generalize lib.IsDAntiQuark x.hit_quark = isdb at *
  generalize x.IsWeakNC = isnc at *
  generalize x.from_sea = sea at *
  cases isu <;> cases isd <;> simp at hud h1 h2 h3 h4 h5 <;> subst_vars <;>
  cases isp <;> cases isn <;> simp at hnuc hn <;>
  cases isv <;> cases isvb <;> simp at hprobe hpr <;>
  cases isnc <;> cases sea <;> simp [huu, hud1, hdd]

/-- Witness of C14: a muon neutrino, charged current, on a valence d quark of
a proton: the quark handed to PYTHIA is u. -/
theorem Hadronize_final_quark_u_d_witness :
    Hadronize PdgTable.standard Hadronize.exNuCCd = HadronizeOutcome.py2ent 2 2203 ∧
    ∃ dq, Hadronize PdgTable.standard Hadronize.exNuCCd
      = HadronizeOutcome.py2ent PdgTable.standard.kPdgUQuark dq :=
  ⟨by decide,
   (Hadronize_final_quark_u_d PdgTable.standard PdgTable.standard_sound Hadronize.exNuCCd
      rfl rfl (by decide) (by decide) rfl (by decide)).2.1 rfl (by decide) (by decide)⟩

/-- C15: for an input that passes the checks with a struck u or d quark, the
diquark handed to PYTHIA is ud for a proton with u struck, uu for a proton
with d struck, dd for a neutron with u struck and ud for a neutron with d
struck, and the outcome is the same for both values of the flag `from_sea`. -/
theorem Hadronize_diquark_u_d (lib : PdgTable) (hs : lib.Sound) (x : HadronizeInput)
    (hset : x.StruckQuarkIsSet = true) (hweak : x.IsWeak = true)
    (hnuc : lib.IsProton x.hit_nucleon = true ∨ lib.IsNeutron x.hit_nucleon = true)
    (hproc : x.IsWeakCC = true ∨ x.IsWeakNC = true)
    (hprobe : lib.IsNeutrino x.probe = true ∨ lib.IsAntiNeutrino x.probe = true)
    (hallowed : Hadronize.allowed (Hadronize.flags lib x) = true)
    (hud : lib.IsUQuark x.hit_quark = true ∨ lib.IsDQuark x.hit_quark = true) :
    ∃ fq dq, (∀ sea, Hadronize lib (x.withSea sea) = HadronizeOutcome.py2ent fq dq) ∧
      (lib.IsProton x.hit_nucleon = true → lib.IsUQuark x.hit_quark = true →
        dq = lib.kPdgUDDiquarkS1) ∧
      (lib.IsProton x.hit_nucleon = true → lib.IsDQuark x.hit_quark = true →
        dq = lib.kPdgUUDiquarkS1) ∧
      (lib.IsNeutron x.hit_nucleon = true → lib.IsUQuark x.hit_quark = true →
        dq = lib.kPdgDDDiquarkS1) ∧
      (lib.IsNeutron x.hit_nucleon = true → lib.IsDQuark x.hit_quark = true →
        dq = lib.kPdgUDDiquarkS1) := by
  have hn := hs.nucleon x.hit_nucleon
  have h1 := hs.u_d x.hit_quark
  have h2 := hs.u_ub x.hit_quark
  have h3 := hs.u_db x.hit_quark
  have h4 := hs.d_ub x.hit_quark
  have h5 := hs.d_db x.hit_quark
  have huu := hs.uu_ne
  have hud1 := hs.ud_ne
  have hdd := hs.dd_ne
  have hfq := Hadronize.finalQuark_of_allowed lib (Hadronize.flags lib x) x.hit_quark hallowed
  obtain ⟨fq, hfq1⟩ : ∃ fq, Hadronize.finalQuark lib (Hadronize.flags lib x) x.hit_quark
      = some fq := by
    cases hq : Hadronize.finalQuark lib (Hadronize.flags lib x) x.hit_quark with
    | none => exact absurd hq hfq
    | some fq => exact ⟨fq, rfl⟩
  have hrun : ∀ sea, Hadronize lib (x.withSea sea)
      = (let st := Hadronize.remnant lib (Hadronize.flags lib x) sea (fq, 0)
         if st.2 = 0 then HadronizeOutcome.assertFailed 177
         else HadronizeOutcome.py2ent st.1 st.2) := by
    intro sea
    have hc : ((Hadronize.flags lib x).isp || (Hadronize.flags lib x).isn) = true := by
      rcases hnuc with h | h <;> simp [Hadronize.flags, h]
    have hp : ((Hadronize.flags lib x).iscc || (Hadronize.flags lib x).isnc) = true := by
      rcases hproc with h | h <;> simp [Hadronize.flags, h]
    have hv : ((Hadronize.flags lib x).isv || (Hadronize.flags lib x).isvb) = true := by
      rcases hprobe with h | h <;> simp [Hadronize.flags, h]
    rw [Hadronize_of_checks lib (x.withSea sea) hset hc hp hv hallowed]
    show Hadronize.quarkSystem lib (Hadronize.flags lib x) (x.withSea sea) = _
    simp only [Hadronize.quarkSystem, show (x.withSea sea).IsWeak = true from hweak,
      show (x.withSea sea).hit_quark = x.hit_quark from rfl,
      show (x.withSea sea).from_sea = sea from rfl, hfq1]
    simp
  simp only [hrun, Hadronize.flags, Hadronize.remnant, Hadronize.remnantValence,
    Hadronize.remnantSea, Hadronize.setDiquark, Hadronize.setBoth]
  generalize lib.IsProton x.hit_nucleon = isp at *
  generalize lib.IsNeutron x.hit_nucleon = isn at *
  generalize lib.IsUQuark x.hit_quark = isu at *
  generalize lib.IsDQuark x.hit_quark = isd at *
  generalize lib.IsUAntiQuark x.hit_quark = isub at *
  generalize lib.IsDAntiQuark x.hit_quark = isdb at *
  cases isu <;> cases isd <;> simp at hud h1 h2 h3 h4 h5 <;> subst_vars <;>
  cases isp <;> cases isn <;> simp at hnuc hn
  · exact ⟨fq, lib.kPdgUDDiquarkS1, fun sea => by cases sea <;> simp [hud1], by simp⟩
  · exact ⟨fq, lib.kPdgUUDiquarkS1, fun sea => by cases sea <;> simp [huu], by simp⟩
  · exact ⟨fq, lib.kPdgDDDiquarkS1, fun sea => by cases sea <;> simp [hdd], by simp⟩
  · exact ⟨fq, lib.kPdgUDDiquarkS1, fun sea => by cases sea <;> simp [hud1], by simp⟩

/-- Witness of C15: a muon neutrino, charged current, on a d quark of a
proton: the diquark is uu for the valence flag and for the sea flag. -/
theorem Hadronize_diquark_u_d_witness :
    (∀ sea, Hadronize PdgTable.standard (Hadronize.exNuCCd.withSea sea)
      = HadronizeOutcome.py2ent 2 2203) ∧
    ∃ fq dq, (∀ sea, Hadronize PdgTable.standard (Hadronize.exNuCCd.withSea sea)
        = HadronizeOutcome.py2ent fq dq) ∧ dq = PdgTable.standard.kPdgUUDiquarkS1 := by
  refine ⟨by decide, ?_⟩
  obtain ⟨fq, dq, h, _, h2, _, _⟩ :=
    Hadronize_diquark_u_d PdgTable.standard PdgTable.standard_sound Hadronize.exNuCCd
      rfl rfl (by decide) (by decide) (by decide) (by decide) (by decide)
  exact ⟨fq, dq, h, h2 (by decide) (by decide)⟩

/-- C16: for an input that passes the checks with exactly one of CC/NC set and
a struck sea antiquark (anti-u or anti-d), the quark handed to PYTHIA is the
partner quark, u for anti-u and d for anti-d, for CC and for NC, although the
first assignment gave the struck antiquark (NC) or anti-d, anti-u (CC); the
diquark is, for a proton, uu (anti-u CC), ud (anti-u NC), ud (anti-d CC),
uu (anti-d NC), and for a neutron ud, dd, dd, ud in the same order. -/
theorem Hadronize_sea_antiquark (lib : PdgTable) (hs : lib.Sound) (x : HadronizeInput)
    (hset : x.StruckQuarkIsSet = true) (hweak : x.IsWeak = true)
    (hnuc : lib.IsProton x.hit_nucleon = true ∨ lib.IsNeutron x.hit_nucleon = true)
    (hprobe : lib.IsNeutrino x.probe = true ∨ lib.IsAntiNeutrino x.probe = true)
    (hone : x.IsWeakCC = !x.IsWeakNC)
    (hallowed : Hadronize.allowed (Hadronize.flags lib x) = true)
    (hsea : x.from_sea = true)
    (hanti : lib.IsUAntiQuark x.hit_quark = true ∨ lib.IsDAntiQuark x.hit_quark = true) :
    (lib.IsProton x.hit_nucleon = true → lib.IsUAntiQuark x.hit_quark = true →
      x.IsWeakCC = true →
      Hadronize lib x = HadronizeOutcome.py2ent lib.kPdgUQuark lib.kPdgUUDiquarkS1) ∧
    (lib.IsProton x.hit_nucleon = true → lib.IsUAntiQuark x.hit_quark = true →
      x.IsWeakNC = true →
      Hadronize lib x = HadronizeOutcome.py2ent lib.kPdgUQuark lib.kPdgUDDiquarkS1) ∧
    (lib.IsProton x.hit_nucleon = true → lib.IsDAntiQuark x.hit_quark = true →
      x.IsWeakCC = true →
      Hadronize lib x = HadronizeOutcome.py2ent lib.kPdgDQuark lib.kPdgUDDiquarkS1) ∧
    (lib.IsProton x.hit_nucleon = true → lib.IsDAntiQuark x.hit_quark = true →
      x.IsWeakNC = true →
      Hadronize lib x = HadronizeOutcome.py2ent lib.kPdgDQuark lib.kPdgUUDiquarkS1) ∧
    (lib.IsNeutron x.hit_nucleon = true → lib.IsUAntiQuark x.hit_quark = true →
      x.IsWeakCC = true →
      Hadronize lib x = HadronizeOutcome.py2ent lib.kPdgUQuark lib.kPdgUDDiquarkS1) ∧
    (lib.IsNeutron x.hit_nucleon = true → lib.IsUAntiQuark x.hit_quark = true →
      x.IsWeakNC = true →
      Hadronize lib x = HadronizeOutcome.py2ent lib.kPdgUQuark lib.kPdgDDDiquarkS1) ∧
    (lib.IsNeutron x.hit_nucleon = true → lib.IsDAntiQuark x.hit_quark = true →
      x.IsWeakCC = true →
      Hadronize lib x = HadronizeOutcome.py2ent lib.kPdgDQuark lib.kPdgDDDiquarkS1) ∧
    (lib.IsNeutron x.hit_nucleon = true → lib.IsDAntiQuark x.hit_quark = true →
      x.IsWeakNC = true →
      Hadronize lib x = HadronizeOutcome.py2ent lib.kPdgDQuark lib.kPdgUDDiquarkS1) ∧
    (x.IsWeakNC = true →
      Hadronize.finalQuark lib (Hadronize.flags lib x) x.hit_quark = some x.hit_quark) ∧
    (x.IsWeakCC = true → lib.IsUAntiQuark x.hit_quark = true →
      Hadronize.finalQuark lib (Hadronize.flags lib x) x.hit_quark
        = some lib.kPdgDQuarkBar) ∧
    (x.IsWeakCC = true → lib.IsDAntiQuark x.hit_quark = true →
      Hadronize.finalQuark lib (Hadronize.flags lib x) x.hit_quark
        = some lib.kPdgUQuarkBar) := by
  have hn := hs.nucleon x.hit_nucleon
  have hpr := hs.probe x.probe
  have h2 := hs.u_ub x.hit_quark
  have h3 := hs.u_db x.hit_quark
  have h4 := hs.d_ub x.hit_quark
  have h5 := hs.d_db x.hit_quark
  have h6 := hs.ub_db x.hit_quark
  have huu := hs.uu_ne
  have hud1 := hs.ud_ne
  have hdd := hs.dd_ne
  revert hallowed
  simp only [Hadronize, Hadronize.flags, Hadronize.quarkSystem, Hadronize.allowed,
    Hadronize.finalQuark, Hadronize.remnant, Hadronize.remnantValence, Hadronize.remnantSea,
    Hadronize.setDiquark, Hadronize.setBoth, hset, hweak, hone, hsea]
  generalize lib.IsProton x.hit_nucleon = isp at *
  generalize lib.IsNeutron x.hit_nucleon = isn at *
  generalize lib.IsNeutrino x.probe = isv at *
  generalize lib.IsAntiNeutrino x.probe = isvb at *
  generalize lib.IsUQuark x.hit_quark = isu at *
  generalize lib.IsDQuark x.hit_quark = isd at *
  generalize lib.IsUAntiQuark x.hit_quark = isub at *
  generalize lib.IsDAntiQuark x.hit_quark = isdb at *
  generalize x.IsWeakNC = isnc at *
  cases isub <;> cases isdb <;> simp at hanti h6 <;>
  cases isu <;> simp at h2 h3 <;> cases isd <;> simp at h4 h5 <;>
  cases isp <;> cases isn <;> simp at hnuc hn <;>
  cases isv <;> cases isvb <;> simp at hprobe hpr <;>
  cases isnc <;> simp [huu, hud1, hdd]

/-- Witness of C16: a muon antineutrino, neutral current, on a sea anti-d
quark of a neutron: PYTHIA gets the quark d and the diquark ud. -/
theorem Hadronize_sea_antiquark_witness :
    Hadronize.finalQuark PdgTable.standard
      (Hadronize.flags PdgTable.standard Hadronize.exNubarNCdbar)
      Hadronize.exNubarNCdbar.hit_quark = some (-1) ∧
    Hadronize PdgTable.standard Hadronize.exNubarNCdbar
      = HadronizeOutcome.py2ent PdgTable.standard.kPdgDQuark
          PdgTable.standard.kPdgUDDiquarkS1 :=
  ⟨by decide,
   (Hadronize_sea_antiquark PdgTable.standard PdgTable.standard_sound
      Hadronize.exNubarNCdbar rfl rfl (by decide) (by decide) rfl (by decide) rfl
      (by decide)).2.2.2.2.2.2.2.1 (by decide) (by decide) rfl⟩

/-- Counterexample to C17 as stated: the struck nucleon code 0 is neither
proton nor neutron, but no struck quark is set; with assertions enabled the
run ends in the failed assertion of line 69, not in an `exit(1)`. -/
theorem Hadronize_exit_counterexample :
    PdgTable.standard.IsProton Hadronize.exNoQuark.hit_nucleon = false ∧
    PdgTable.standard.IsNeutron Hadronize.exNoQuark.hit_nucleon = false ∧
    Hadronize PdgTable.standard Hadronize.exNoQuark = HadronizeOutcome.assertFailed 69 ∧
    Hadronize PdgTable.standard Hadronize.exNoQuark ≠ HadronizeOutcome.exit1 91 ∧
    ¬ ∃ l, Hadronize PdgTable.standard Hadronize.exNoQuark = HadronizeOutcome.exit1 l := by
  refine ⟨by decide, by decide, by decide, by decide, ?_⟩
  rintro ⟨l, hl⟩
  have h69 : Hadronize PdgTable.standard Hadronize.exNoQuark
      = HadronizeOutcome.assertFailed 69 := by decide
  rw [h69] at hl
  exact HadronizeOutcome.noConfusion hl

/-- C17 (amended): with assertions enabled, an input without a struck quark
ends in the failed assertion of line 69.  For an input whose struck quark is
set, the run ends in an `exit(1)` if and only if the struck nucleon is neither
proton nor neutron, or the process is neither weak CC nor weak NC, or the
probe is neither neutrino nor antineutrino; the three tests are made in that
order (lines 91, 95, 100). -/
theorem Hadronize_exit_iff (lib : PdgTable) (x : HadronizeInput) :
    (x.StruckQuarkIsSet = false →
      Hadronize lib x = HadronizeOutcome.assertFailed 69) ∧
    (x.StruckQuarkIsSet = true →
      ((∃ l, Hadronize lib x = HadronizeOutcome.exit1 l) ↔
        (¬ (lib.IsProton x.hit_nucleon = true ∨ lib.IsNeutron x.hit_nucleon = true) ∨
         ¬ (x.IsWeakCC = true ∨ x.IsWeakNC = true) ∨
         ¬ (lib.IsNeutrino x.probe = true ∨ lib.IsAntiNeutrino x.probe = true))) ∧
      (¬ (lib.IsProton x.hit_nucleon = true ∨ lib.IsNeutron x.hit_nucleon = true) →
        Hadronize lib x = HadronizeOutcome.exit1 91) ∧
      ((lib.IsProton x.hit_nucleon = true ∨ lib.IsNeutron x.hit_nucleon = true) →
        ¬ (x.IsWeakCC = true ∨ x.IsWeakNC = true) →
        Hadronize lib x = HadronizeOutcome.exit1 95) ∧
      ((lib.IsProton x.hit_nucleon = true ∨ lib.IsNeutron x.hit_nucleon = true) →
        (x.IsWeakCC = true ∨ x.IsWeakNC = true) →
        ¬ (lib.IsNeutrino x.probe = true ∨ lib.IsAntiNeutrino x.probe = true) →
        Hadronize lib x = HadronizeOutcome.exit1 100)) := by
  refine ⟨fun h => by simp [Hadronize, h], fun hset => ?_⟩
  have key : ∀ l, Hadronize.allowed (Hadronize.flags lib x) = true →
      Hadronize.quarkSystem lib (Hadronize.flags lib x) x ≠ HadronizeOutcome.exit1 l :=
    fun l h => Hadronize.quarkSystem_ne_exit lib (Hadronize.flags lib x) x h l
  revert key
  simp only [Hadronize, Hadronize.flags, hset]
  generalize Hadronize.quarkSystem lib _ x = qs
  generalize Hadronize.allowed _ = al
  generalize lib.IsProton x.hit_nucleon = isp
  generalize lib.IsNeutron x.hit_nucleon = isn
  generalize lib.IsNeutrino x.probe = isv
  generalize lib.IsAntiNeutrino x.probe = isvb
  generalize x.IsWeakCC = iscc
  generalize x.IsWeakNC = isnc
  intro key
  cases isp <;> cases isn <;> cases iscc <;> cases isnc <;> cases isv <;> cases isvb <;>
    cases al <;> simp_all

/-- Witness of C17 (amended): an electron probe with the struck quark set ends
in the `exit(1)` of line 100; the input without a struck quark ends in the
failed assertion. -/
theorem Hadronize_exit_iff_witness :
    Hadronize PdgTable.standard Hadronize.exNoQuark = HadronizeOutcome.assertFailed 69 ∧
    Hadronize PdgTable.standard Hadronize.exElectron = HadronizeOutcome.exit1 100 :=
  ⟨(Hadronize_exit_iff PdgTable.standard Hadronize.exNoQuark).1 rfl,
   ((Hadronize_exit_iff PdgTable.standard Hadronize.exElectron).2 rfl).2.2.2
      (by decide) (by decide) (by decide)⟩

/-- C18: no run of `Hadronize` with assertions enabled ends in the `exit(1)`
of line 130; when `allowed` holds and the process is not weak NC, one of the
four CC cases (neutrino on d, neutrino on anti-u, antineutrino on u,
antineutrino on anti-d) applies and the final quark is assigned. -/
theorem Hadronize_not_allowed_mode_unreachable (lib : PdgTable) (x : HadronizeInput) :
    Hadronize lib x ≠ HadronizeOutcome.exit1 130 ∧
    (Hadronize.allowed (Hadronize.flags lib x) = true → x.IsWeakNC = false →
      ((lib.IsNeutrino x.probe = true ∧ lib.IsDQuark x.hit_quark = true) ∨
       (lib.IsNeutrino x.probe = true ∧ lib.IsUAntiQuark x.hit_quark = true) ∨
       (lib.IsAntiNeutrino x.probe = true ∧ lib.IsUQuark x.hit_quark = true) ∨
       (lib.IsAntiNeutrino x.probe = true ∧ lib.IsDAntiQuark x.hit_quark = true)) ∧
      ∃ fq, Hadronize.finalQuark lib (Hadronize.flags lib x) x.hit_quark = some fq) := by
  constructor
  · have key : Hadronize.allowed (Hadronize.flags lib x) = true →
        Hadronize.quarkSystem lib (Hadronize.flags lib x) x ≠ HadronizeOutcome.exit1 130 :=
      fun h => Hadronize.quarkSystem_ne_exit lib (Hadronize.flags lib x) x h 130
    revert key
    simp only [Hadronize]
    generalize Hadronize.quarkSystem lib _ x = qs
    generalize Hadronize.allowed _ = al
    intro key
    split
    · simp
    · split
      · simp
      · split
        · simp
        · split
          · simp
          · cases al <;> simp_all
  · intro hal hnc
    constructor
    · revert hal
      simp only [Hadronize.allowed, Hadronize.flags, hnc]
      generalize lib.IsNeutrino x.probe = isv
      generalize lib.IsAntiNeutrino x.probe = isvb
      generalize lib.IsUQuark x.hit_quark = isu
      generalize lib.IsDQuark x.hit_quark = isd
      generalize lib.IsUAntiQuark x.hit_quark = isub
      generalize lib.IsDAntiQuark x.hit_quark = isdb
      generalize x.IsWeakCC = iscc
      cases iscc <;> cases isv <;> cases isvb <;> cases isu <;> cases isd <;> cases isub <;>
        cases isdb <;> simp
    · have hq := Hadronize.finalQuark_of_allowed lib (Hadronize.flags lib x) x.hit_quark hal
      cases hfq : Hadronize.finalQuark lib (Hadronize.flags lib x) x.hit_quark with
      | none => exact absurd hfq hq
      | some fq => exact ⟨fq, rfl⟩

/-- Witness of C18: for a muon neutrino, charged current, on a d quark the
assertion of `allowed` holds, the process is not NC, and the first of the four
CC cases applies. -/
theorem Hadronize_not_allowed_mode_unreachable_witness :
    Hadronize.allowed (Hadronize.flags PdgTable.standard Hadronize.exNuCCd) = true ∧
    Hadronize.exNuCCd.IsWeakNC = false ∧
    Hadronize PdgTable.standard Hadronize.exNuCCd ≠ HadronizeOutcome.exit1 130 ∧
    ∃ fq, Hadronize.finalQuark PdgTable.standard
      (Hadronize.flags PdgTable.standard Hadronize.exNuCCd)
      Hadronize.exNuCCd.hit_quark = some fq :=
  ⟨by decide, rfl,
   (Hadronize_not_allowed_mode_unreachable PdgTable.standard Hadronize.exNuCCd).1,
   ((Hadronize_not_allowed_mode_unreachable PdgTable.standard Hadronize.exNuCCd).2
      (by decide) rfl).2⟩

end genie

/-! ## Theorems: BreitWignerLRes -/

namespace genie

/-- Counterexample to C11 as stated: when `SubAlg` returns an algorithm that is
not a `BaryonResDataSetI`, or the null pointer, `Configure` does not fail: it
completes and leaves the null data set. -/
theorem BreitWignerLRes.Configure_null_counterexample :
    BreitWignerLRes.Configure (fun b (_ : String) => b) Example.SubAlgOther
      (BreitWignerLRes.mk () none) "Default" = some (BreitWignerLRes.mk () none) ∧
    BreitWignerLRes.Configure (fun b (_ : String) => b) Example.SubAlgNull
      (BreitWignerLRes.mk () none) "Default" = some (BreitWignerLRes.mk () none) ∧
    BreitWignerLRes.Configure (fun b (_ : String) => b) Example.SubAlgOther
      (BreitWignerLRes.mk () none) "Default" ≠ none := by
  decide

/-- C11 (amended): `Configure` stores the cast of what `SubAlg` returns for
the keys "baryon-res-alg-name" and "baryon-res-param-set".  When `SubAlg`
returns nothing or an algorithm that is not a `BaryonResDataSetI`, `Configure`
completes with the null data set, and `Eval` later hands that null pointer to
`BaryonResParams`; the data set is set exactly when `SubAlg` returns a
`BaryonResDataSetI`; `Configure` fails only when `SubAlg` itself ends the
program. -/
theorem BreitWignerLRes.Configure_stores_cast {B C D O R V : Type}
    (AlgorithmConfigure : B → C → B) (SubAlg : B → String → String → SubAlgResult D O)
    (RetrieveData : Option D → R → BaryonResParams V)
    (BreitWignerL : V → Int → V → V → V → V)
    (this : BreitWignerLRes B D) (config : C) :
    ((SubAlg (AlgorithmConfigure this.base config) "baryon-res-alg-name"
          "baryon-res-param-set" = SubAlgResult.returned AlgorithmPtr.null ∨
      ∃ o, SubAlg (AlgorithmConfigure this.base config) "baryon-res-alg-name"
          "baryon-res-param-set" = SubAlgResult.returned (AlgorithmPtr.other o)) →
      BreitWignerLRes.Configure AlgorithmConfigure SubAlg this config
        = some (BreitWignerLRes.mk (AlgorithmConfigure this.base config) none) ∧
      ∀ res W, BreitWignerLRes.Eval RetrieveData BreitWignerL
          (BreitWignerLRes.mk (AlgorithmConfigure this.base config) none) res W
        = BreitWignerL W (RetrieveData none res).OrbitalAngularMom
            (RetrieveData none res).Mass (RetrieveData none res).Width
            (RetrieveData none res).BreitWignerNorm) ∧
    (∀ d, SubAlg (AlgorithmConfigure this.base config) "baryon-res-alg-name"
          "baryon-res-param-set" = SubAlgResult.returned (AlgorithmPtr.dataSet d) →
      BreitWignerLRes.Configure AlgorithmConfigure SubAlg this config
        = some (BreitWignerLRes.mk (AlgorithmConfigure this.base config) (some d))) ∧
    (BreitWignerLRes.Configure AlgorithmConfigure SubAlg this config = none ↔
      SubAlg (AlgorithmConfigure this.base config) "baryon-res-alg-name"
          "baryon-res-param-set" = SubAlgResult.fatal) := by
  simp only [BreitWignerLRes.Configure, BreitWignerLRes.LoadSubAlg]
  refine ⟨?_, ?_, ?_⟩
  · rintro (h | ⟨o, h⟩)
    · rw [h]
      exact ⟨rfl, fun _ _ => rfl⟩
    · rw [h]
      exact ⟨rfl, fun _ _ => rfl⟩
  · intro d h
    rw [h]
    rfl
  · cases h : SubAlg (AlgorithmConfigure this.base config) "baryon-res-alg-name"
        "baryon-res-param-set" with
    | fatal => simp
    | returned p => simp

/-- Witness of C11 (amended): a lookup that returns an algorithm of another
type leaves the null data set after `Configure`. -/
theorem BreitWignerLRes.Configure_stores_cast_witness :
    BreitWignerLRes.Configure (fun b (_ : String) => b) Example.SubAlgOther
      (BreitWignerLRes.mk () (some 3)) "Default" = some (BreitWignerLRes.mk () none) :=
  ((BreitWignerLRes.Configure_stores_cast (fun b (_ : String) => b) Example.SubAlgOther
      (fun (_ : Option Nat) (_ : Nat) => BaryonResParams.mk (0 : Int) 0 0 0)
      (fun W _ _ _ _ => W) (BreitWignerLRes.mk () (some 3)) "Default").1
    (Or.inr ⟨(), rfl⟩)).1

end genie

/-! ## Theorems: gvld_e_res_xsec -/

namespace genie

theorem Model.compositionOf_proton :
    Model.compositionOf 1000010010 = Model.Composition.mk 1 1 0 true false 1 0 := by
  simp [Model.compositionOf, pdg.IonPdgCodeToZ, pdg.IonPdgCodeToA]

theorem Model.compositionOf_table_deuterium :
    Model.compositionOf 1000020010 = Model.Composition.mk 2 1 (-1) true false 2 (-1) := by
  simp [Model.compositionOf, pdg.IonPdgCodeToZ, pdg.IonPdgCodeToA]

/-- C12, what the code computes: the labels name Hydrogen for the data sets
0..8 and Deuterium for 9..16; the entries 0..8 of `kElXSecTarget` decode to
Z = 1, A = 1, but the entries 9..16, 1000020010, decode to Z = 2, A = 1, so
that N = -1, `tgt_has_n` is false, `frac_p` = 2 and `frac_n` = -1.  Under the
same convention the code with Z = 1 and A = 2 is 1000010020, and the free
neutron 1000000010 has Z = 0, A = 1. -/
theorem Model.target_table_decodes :
    (List.range 17).map (Model.labelNames "Hydrogen")
      = List.replicate 9 true ++ List.replicate 8 false ∧
    (List.range 17).map (Model.labelNames "Deuterium")
      = List.replicate 9 false ++ List.replicate 8 true ∧
    (List.range 17).map Model.composition
      = List.replicate 9 (some (Model.Composition.mk 1 1 0 true false 1 0)) ++
        List.replicate 8 (some (Model.Composition.mk 2 1 (-1) true false 2 (-1))) ∧
    Model.compositionOf 1000010020 = Model.Composition.mk 1 2 1 true true (1 / 2) (1 / 2) ∧
    Model.compositionOf 1000000010 = Model.Composition.mk 0 1 1 false true 0 1 := by
  refine ⟨by decide, by decide, ?_, ?_, ?_⟩
  · simp only [Model.composition, kElXSecTarget, List.range, List.range.loop, List.map,
      List.get?, Option.map, Model.compositionOf_proton, Model.compositionOf_table_deuterium,
      List.replicate, List.append]
    rfl
  · simp [Model.compositionOf, pdg.IonPdgCodeToZ, pdg.IonPdgCodeToA]
  · simp [Model.compositionOf, pdg.IonPdgCodeToZ, pdg.IonPdgCodeToA]

/-- Counterexample to C13 as stated: the lookups of -m and of -u end in an
exception whose `ArgumentFound()` is true.  The option -m was found but
`gShowModel` stays false; no value of -u was obtained but `gCmpWithData`
stays true. -/
theorem GetCommandLineArgs_found_counterexample :
    (Example.foundNoValue 'm').found = true ∧
    (Example.foundNoValue 'u').hasValue = false ∧
    ∃ g, GetCommandLineArgs Example.foundNoValue Example.Split Globals.initial = some g ∧
      g.gShowModel = false ∧ g.gCmpWithData = true :=
  ⟨by decide, by decide,
   Globals.mk "mysql://localhost/NuScat" "" "secret" "" "" true false,
   by decide, rfl, rfl⟩

/-- C13 (amended): every option is optional: from the initial globals
`GetCommandLineArgs` fails only when the value of -m does not split on "/"
into exactly two parts.  When it completes, `gShowModel` is true iff the value
of -m was obtained, and then the value splits into the model name and the
configuration name; `gCmpWithData` is false iff the lookup of -u or of -p
reported the option as not found; `gOptDbURL` is the value of -h when it was
obtained, the default when -h was reported as not found, and unchanged when
the lookup failed with the option found. -/
theorem GetCommandLineArgs_globals (arg : Char → CmdLineArg)
    (Split : String → String → List String) :
    (GetCommandLineArgs arg Split Globals.initial = none ↔
      ∃ v, arg 'm' = CmdLineArg.value v ∧ (Split v "/").length ≠ 2) ∧
    ∀ g, GetCommandLineArgs arg Split Globals.initial = some g →
      (g.gShowModel = true ↔ ∃ v, arg 'm' = CmdLineArg.value v) ∧
      (∀ v, arg 'm' = CmdLineArg.value v →
        Split v "/" = [g.gOptGModelName, g.gOptGModelConf]) ∧
      (g.gCmpWithData = false ↔
        (arg 'u' = CmdLineArg.exception false ∨ arg 'p' = CmdLineArg.exception false)) ∧
      (∀ v, arg 'h' = CmdLineArg.value v → g.gOptDbURL = v) ∧
      (arg 'h' = CmdLineArg.exception false → g.gOptDbURL = kDefDbURL) ∧
      (arg 'h' = CmdLineArg.exception true → g.gOptDbURL = Globals.initial.gOptDbURL) := by
  simp only [GetCommandLineArgs, GetCommandLineArgs.model, GetCommandLineArgs.url,
    GetCommandLineArgs.user, GetCommandLineArgs.passwd, Globals.initial]
  generalize arg 'm' = am
  generalize arg 'h' = ah
  generalize arg 'u' = au
  generalize arg 'p' = ap
  constructor
  · cases am with
    | exception f => cases f <;> simp
    | value v =>
      rcases hsp : Split v "/" with _ | ⟨a, _ | ⟨b, _ | ⟨c, r⟩⟩⟩ <;> simp [hsp]
  · intro g hg
    cases am with
    | exception f =>
      cases f <;> simp at hg <;> subst hg <;>
      rcases ah with vh | fh <;> rcases au with vu | fu <;> rcases ap with vp | fp <;>
      (try cases fh) <;> (try cases fu) <;> (try cases fp) <;> simp
    | value v =>
      rcases hsp : Split v "/" with _ | ⟨a, _ | ⟨b, _ | ⟨c, r⟩⟩⟩ <;> simp [hsp] at hg
      subst hg
      rcases ah with vh | fh <;> rcases au with vu | fu <;> rcases ap with vp | fp <;>
      (try cases fh) <;> (try cases fu) <;> (try cases fp) <;> simp [hsp]

/-- Witness of C13 (amended): the command line of the program documentation
and the command line without options. -/
theorem GetCommandLineArgs_globals_witness :
    GetCommandLineArgs Example.documented Example.Split Globals.initial
      = some (Globals.mk "mysql://localhost/NuScat" "costas" "&^@7287"
          "genie::ReinSeghalRESPXSec" "Default" true true) ∧
    Example.Split "genie::ReinSeghalRESPXSec/Default" "/" = ["genie::ReinSeghalRESPXSec", "Default"] ∧
    GetCommandLineArgs Example.noOption Example.Split Globals.initial
      = some (Globals.mk kDefDbURL "" "" "" "" false false) ∧
    ((Globals.mk kDefDbURL "" "" "" "" false false).gCmpWithData = false ↔
      (Example.noOption 'u' = CmdLineArg.exception false ∨
       Example.noOption 'p' = CmdLineArg.exception false)) :=
  ⟨by decide,
   ((GetCommandLineArgs_globals Example.documented Example.Split).2
      (Globals.mk "mysql://localhost/NuScat" "costas" "&^@7287"
        "genie::ReinSeghalRESPXSec" "Default" true true) (by decide)).2.1 _ rfl,
   by decide,
   ((GetCommandLineArgs_globals Example.noOption Example.Split).2
      (Globals.mk kDefDbURL "" "" "" "" false false) (by decide)).2.2.1⟩

end genie

/-! ## Theorems: GlashowResonancePXSec -/

namespace genie

/-- C19: for every interaction for which `ValidProcess` is false, `Integral`
returns 0 as an ordinary value without any lookup of the W, whatever the PDG
library would give (also the null pointer); `ValidProcess` is false exactly
when the check is not skipped and the probe is no electron antineutrino, or a
hit nucleon is set, or the process is not weak CC; `ValidKinematics` is true
for every interaction; `XSec` returns 0 for every interaction and phase
space. -/
theorem GlashowResonancePXSec.Integral_invalid_process {R I K : Type} [Field R]
    (IsAntiNuE : Int → Bool) (c : GlashowConstants R) (FindWM : Option R)
    (interaction : GlashowInput R)
    (h : GlashowResonancePXSec.ValidProcess IsAntiNuE interaction = false) :
    GlashowResonancePXSec.Integral IsAntiNuE c FindWM interaction
      = IntegralOutcome.returned 0 0 ∧
    (interaction.kISkipProcessChk = false ∧
      (IsAntiNuE interaction.ProbePdg = false ∨ interaction.HitNucIsSet = true ∨
        interaction.IsWeakCC = false)) ∧
    (∀ i : GlashowInput R, GlashowResonancePXSec.ValidKinematics i = true) ∧
    (∀ (i : I) (kps : K), (GlashowResonancePXSec.XSec i kps : R) = 0) := by
  refine ⟨?_, ?_, fun _ => rfl, fun _ _ => rfl⟩
  · simp [GlashowResonancePXSec.Integral, h]
  · revert h
    simp only [GlashowResonancePXSec.ValidProcess]
    generalize IsAntiNuE interaction.ProbePdg = nuok
    cases interaction.kISkipProcessChk <;> cases nuok <;> cases interaction.HitNucIsSet <;>
      cases interaction.IsWeakCC <;> simp

/-- Witness of C19: an electron neutrino is not a valid process; `Integral`
returns 0 although the lookup of the W would give the null pointer. -/
theorem GlashowResonancePXSec.Integral_invalid_process_witness :
    GlashowResonancePXSec.ValidProcess (fun c => c == -12) Example.nuE = false ∧
    GlashowResonancePXSec.Integral (fun c => c == -12) Example.constants none Example.nuE
      = IntegralOutcome.returned 0 0 :=
  ⟨by decide,
   (GlashowResonancePXSec.Integral_invalid_process (I := Unit) (K := Unit)
      (fun c => c == -12) Example.constants none Example.nuE (by decide)).1⟩

end genie
